import Mathlib

/-!
Verification development for the trade-message extraction and threshold-alerting
pipeline (report_generator.py, message_listener.py, database.py).

The Python source is shallowly embedded: regex searches are modelled by executable
leftmost-match scanners over character lists, IEEE floats by exact rationals (no
settled claim depends on rounding), Python dict records by structures, and a
ValueError escaping a function by the error case of Except.
-/

set_option maxRecDepth 16384

namespace DailyReport

/-- Lowercase an ASCII character; models the effect of re.IGNORECASE and of the
upper/lower normalisations used by the source on its ASCII needles. -/
def lcChar (c : Char) : Char :=
  if 'A' ≤ c ∧ c ≤ 'Z' then Char.ofNat (c.toNat + 32) else c

def isDigitC (c : Char) : Bool := decide ('0' ≤ c ∧ c ≤ '9')

def isAsciiLetterC (c : Char) : Bool :=
  decide (('A' ≤ c ∧ c ≤ 'Z') ∨ ('a' ≤ c ∧ c ≤ 'z'))

def isUpperC (c : Char) : Bool := decide ('A' ≤ c ∧ c ≤ 'Z')

/-- Python regex whitespace class over the ASCII whitespace characters occurring in
these messages. -/
def isSpaceC (c : Char) : Bool :=
  decide (c = ' ' ∨ c = '\t' ∨ c = '\n' ∨ c = '\r' ∨ c = '\x0b' ∨ c = '\x0c')

/-- Match a case-sensitive literal at the head of the input; return the remainder. -/
def matchLit : List Char → List Char → Option (List Char)
  | [], s => some s
  | _ :: _, [] => none
  | p :: ps, c :: cs => if p = c then matchLit ps cs else none

/-- Match a literal case-insensitively (ASCII) at the head of the input. -/
def matchCI : List Char → List Char → Option (List Char)
  | [], s => some s
  | _ :: _, [] => none
  | p :: ps, c :: cs => if lcChar p = lcChar c then matchCI ps cs else none

/-- Case-insensitive head match that also returns the matched original characters. -/
def splitCI : List Char → List Char → Option (List Char × List Char)
  | [], s => some ([], s)
  | _ :: _, [] => none
  | p :: ps, c :: cs =>
    if lcChar p = lcChar c then (splitCI ps cs).map (fun pr => (c :: pr.1, pr.2)) else none

/-- Leftmost-match search: try the position matcher at every start position from the
left, as re.search does. -/
def scanPos (f : List Char → Option α) : List Char → Option α
  | [] => f []
  | c :: t =>
    match f (c :: t) with
    | some r => some r
    | none => scanPos f t

/-- Case-sensitive substring test (Python `needle in hay`). -/
def containsSub (needle hay : List Char) : Bool :=
  (scanPos (fun s => if (matchLit needle s).isSome then some () else none) hay).isSome

/-- Case-insensitive substring test (models `needle in text.upper()` and searches of a
plain alternation under re.IGNORECASE). -/
def containsCI (needle hay : List Char) : Bool :=
  (scanPos (fun s => if (matchCI needle s).isSome then some () else none) hay).isSome

def containsCIs (needle : String) (tl : List Char) : Bool := containsCI needle.data tl

/-- Consume one mandatory character. -/
def expectChar (c : Char) : List Char → Option (List Char)
  | x :: r => if x = c then some r else none
  | [] => none

/-- Mandatory whitespace run (regex \s+), returning the remainder. -/
def wsPlus (s : List Char) : Option (List Char) :=
  let p := s.span isSpaceC
  if p.1.isEmpty then none else some p.2

/-- Optional whitespace run (regex \s*). -/
def wsStar (s : List Char) : List Char := s.dropWhile isSpaceC

/-- Nonempty token of characters satisfying p (a regex class with +), returning the
token and the remainder. -/
def tokPlus (p : Char → Bool) (s : List Char) : Option (List Char × List Char) :=
  let q := s.span p
  if q.1.isEmpty then none else some q

def isDigitDot (c : Char) : Bool := isDigitC c || c = '.'

def isNumComma (c : Char) : Bool := isDigitC c || c = ','

def isNumCommaDot (c : Char) : Bool := isDigitC c || c = ',' || c = '.'

def isAmtTok (c : Char) : Bool := isNumCommaDot c || c = 'K' || c = 'M' || c = 'B'

/-- Value of a digit list read in base ten. -/
def digitsToNat (ds : List Char) : Nat := ds.foldl (fun a c => 10 * a + (c.toNat - 48)) 0

/-- Exact decimal numbers: the value man over ten to the exp. These stand in for the
IEEE floats of the source: every numeric token in the messages is a finite decimal,
the modelled code paths only add, scale by powers of ten, take maxima and compare, and
no settled claim depends on float rounding. All constructors below normalise, so equal
reachable values are structurally equal. -/
structure Dec where
  man : Int
  exp : Nat
deriving Repr, DecidableEq

/-- Canonicalise by removing factors of ten from the mantissa while the exponent is
positive. -/
def Dec.norm10 : Int → Nat → Dec
  | m, 0 => ⟨m, 0⟩
  | m, e + 1 => if m % 10 = 0 then Dec.norm10 (m / 10) e else ⟨m, e + 1⟩

instance (n : Nat) : OfNat Dec n := ⟨⟨n, 0⟩⟩

def Dec.add (a b : Dec) : Dec :=
  let e := Nat.max a.exp b.exp
  Dec.norm10 (a.man * (10 : Int) ^ (e - a.exp) + b.man * (10 : Int) ^ (e - b.exp)) e

instance : Add Dec := ⟨Dec.add⟩

/-- Scale by ten to the k (the K, M and B suffix multipliers). -/
def Dec.mulPow10 (k : Nat) (a : Dec) : Dec := Dec.norm10 (a.man * (10 : Int) ^ k) a.exp

instance : LT Dec := ⟨fun a b => a.man * (10 : Int) ^ b.exp < b.man * (10 : Int) ^ a.exp⟩

instance : LE Dec := ⟨fun a b => a.man * (10 : Int) ^ b.exp ≤ b.man * (10 : Int) ^ a.exp⟩

instance Dec.decLt : DecidableRel ((· < ·) : Dec → Dec → Prop) := fun a b =>
  inferInstanceAs (Decidable (a.man * (10 : Int) ^ b.exp < b.man * (10 : Int) ^ a.exp))

instance Dec.decLe : DecidableRel ((· ≤ ·) : Dec → Dec → Prop) := fun a b =>
  inferInstanceAs (Decidable (a.man * (10 : Int) ^ b.exp ≤ b.man * (10 : Int) ^ a.exp))

/-- Python max of two floats: the second only when strictly greater. -/
def Dec.maxD (a b : Dec) : Dec := if a < b then b else a

instance : Max Dec := ⟨Dec.maxD⟩

/-- The rational value of a decimal; used only inside proofs, never evaluated. -/
def Dec.toRat (d : Dec) : ℚ := (d.man : ℚ) / (10 : ℚ) ^ d.exp

/-- Models the Python float() conversion applied to the numeric tokens captured by the
regexes of report_generator.py: a token converts iff it consists of digits with at most
one decimal point and at least one digit; anything else raises ValueError, modelled as
none. -/
def pyFloat (s : List Char) : Option Dec :=
  let p := s.span isDigitC
  match p.2 with
  | [] => if p.1.isEmpty then none else some (Dec.norm10 (digitsToNat p.1) 0)
  | '.' :: rest =>
    let q := rest.span isDigitC
    if q.2.isEmpty && !(p.1.isEmpty && q.1.isEmpty) then
      some (Dec.norm10 (digitsToNat (p.1 ++ q.1)) q.1.length)
    else none
  | _ => none

/-- Models parse_amount_with_suffix (report_generator.py lines 1168-1184): strip commas,
dollar signs and surrounding whitespace, apply a trailing K/M/B multiplier, return None
when the remaining token fails float conversion (the source catches the ValueError). -/
def parse_amount_with_suffix (s : List Char) : Option Dec :=
  let s1 := (s.filter (fun c => c ≠ ',')).filter (fun c => c ≠ '$')
  let s2 := ((s1.dropWhile isSpaceC).reverse.dropWhile isSpaceC).reverse
  match s2.reverse with
  | 'K' :: r => (pyFloat r.reverse).map (Dec.mulPow10 3)
  | 'M' :: r => (pyFloat r.reverse).map (Dec.mulPow10 6)
  | 'B' :: r => (pyFloat r.reverse).map (Dec.mulPow10 9)
  | _ => pyFloat s2

/-- Models the inner parse_amount of the global Total-amount step (report_generator.py
lines 944-959): strip commas, apply the K/M/B suffix, and return 0.0 on a failed float
conversion. -/
def parse_amount_global (s : List Char) : Dec :=
  let s1 := s.filter (fun c => c ≠ ',')
  match s1.reverse with
  | 'K' :: r => match pyFloat r.reverse with | some v => Dec.mulPow10 3 v | none => 0
  | 'M' :: r => match pyFloat r.reverse with | some v => Dec.mulPow10 6 v | none => 0
  | 'B' :: r => match pyFloat r.reverse with | some v => Dec.mulPow10 9 v | none => 0
  | _ => match pyFloat s1 with | some v => v | none => 0

/-! Leg-extraction matchers (report_generator.py lines 1186-1274). Each matcher
implements exactly one regex of the source, with greedy classes and the leftmost-match
rule; captures are returned as raw character lists and converted separately, because the
float conversion of a capture can raise in the source. -/

def isContractC (c : Char) : Bool := isDigitC c || isAsciiLetterC c || c = '-'

/-- Attempt of the capture group ((BTC|ETH)-[\dA-Z-]+) at the current position
(IGNORECASE makes the class match lowercase letters as well); returns the captured
original characters. -/
def contractAt (s : List Char) : Option (List Char) := do
  let pr ← (splitCI "BTC".data s).orElse (fun _ => splitCI "ETH".data s)
  match pr.2 with
  | '-' :: r =>
    let q := r.span isContractC
    if q.1.isEmpty then none else some (pr.1 ++ '-' :: q.1)
  | _ => none

def legAfterSide (isBought : Bool) (s : List Char) :
    Option (Bool × List Char × List Char) := do
  let s1 ← wsPlus s
  let pr ← tokPlus isDigitDot s1
  let s3 ← (expectChar 'x' pr.2).orElse (fun _ => expectChar 'X' pr.2)
  let s4 ← wsPlus s3
  let ct ← scanPos contractAt s4
  some (isBought, pr.1, ct)

/-- Attempt of (Bought|Sold)\s+([\d.]+)x\s+.*?((BTC|ETH)-[\dA-Z-]+) with IGNORECASE
(report_generator.py line 1192) at the current position. The lazy .*? yields the
earliest contract occurrence after the mandatory whitespace. Returns
(side is Bought, volume token, contract capture). -/
def legTryAt (s : List Char) : Option (Bool × List Char × List Char) :=
  match matchCI "Bought".data s with
  | some r => legAfterSide true r
  | none =>
    match matchCI "Sold".data s with
    | some r => legAfterSide false r
    | none => none

def legLineMatch (line : List Char) : Option (Bool × List Char × List Char) :=
  scanPos legTryAt line

/-- Attempt of at\s+([\d.]+)\s*₿\s*\(\$([0-9,.]+)\) (report_generator.py line 1236,
case-sensitive) at the current position; returns (native token, USD token). -/
def atPriceTryAt (s : List Char) : Option (List Char × List Char) := do
  let s1 ← matchLit "at".data s
  let s2 ← wsPlus s1
  let pr ← tokPlus isDigitDot s2
  let s4 ← expectChar '₿' (wsStar pr.2)
  let s5 ← expectChar '(' (wsStar s4)
  let s6 ← expectChar '$' s5
  let pr2 ← tokPlus isNumCommaDot s6
  let _ ← expectChar ')' pr2.2
  some (pr.1, pr2.1)

def atPriceBtcMatch (line : List Char) : Option (List Char × List Char) :=
  scanPos atPriceTryAt line

/-- Attempt of Total\s+(?:Bought|Sold):\s+([\d.]+)\s*₿\s*\(\$([0-9,.KMB]+)\)
(report_generator.py line 1242, case-sensitive) at the current position. -/
def totalTryAt (s : List Char) : Option (List Char × List Char) := do
  let s1 ← matchLit "Total".data s
  let s2 ← wsPlus s1
  let s3 ← (matchLit "Bought".data s2).orElse (fun _ => matchLit "Sold".data s2)
  let s4 ← expectChar ':' s3
  let s5 ← wsPlus s4
  let pr ← tokPlus isDigitDot s5
  let s7 ← expectChar '₿' (wsStar pr.2)
  let s8 ← expectChar '(' (wsStar s7)
  let s9 ← expectChar '$' s8
  let pr2 ← tokPlus isAmtTok s9
  let _ ← expectChar ')' pr2.2
  some (pr.1, pr2.1)

def totalBtcLegMatch (line : List Char) : Option (List Char × List Char) :=
  scanPos totalTryAt line

/-- Attempt of the alternation \*\*IV\*\*:\s*([\d.]+)% | IV:\s*([\d.]+)%
(report_generator.py line 1248, case-sensitive, left alternative tried first). -/
def ivTryAt (s : List Char) : Option (List Char) :=
  (do
    let s1 ← matchLit "**IV**:".data s
    let pr ← tokPlus isDigitDot (wsStar s1)
    let _ ← expectChar '%' pr.2
    some pr.1).orElse (fun _ => do
    let s1 ← matchLit "IV:".data s
    let pr ← tokPlus isDigitDot (wsStar s1)
    let _ ← expectChar '%' pr.2
    some pr.1)

def ivLegMatch (line : List Char) : Option (List Char) := scanPos ivTryAt line

/-- Attempt of the alternation \*\*Ref\*\*:\s*\$([0-9,.]+) | Ref:\s*\$([0-9,.]+)
(report_generator.py line 1253, case-sensitive). -/
def refTryAt (s : List Char) : Option (List Char) :=
  (do
    let s1 ← matchLit "**Ref**:".data s
    let s2 ← expectChar '$' (wsStar s1)
    let pr ← tokPlus isNumCommaDot s2
    some pr.1).orElse (fun _ => do
    let s1 ← matchLit "Ref:".data s
    let s2 ← expectChar '$' (wsStar s1)
    let pr ← tokPlus isNumCommaDot s2
    some pr.1)

def refLegMatch (line : List Char) : Option (List Char) := scanPos refTryAt line

def findCI (needle : List Char) (s : List Char) : Option (List Char) :=
  scanPos (matchCI needle) s

/-- Detection of a quote line via re.search(r'bid.*mark.*ask', line, IGNORECASE)
(report_generator.py line 1258): bid, mark and ask occur in order. -/
def quoteLineTest (line : List Char) : Bool :=
  match findCI "bid".data line with
  | none => false
  | some r1 =>
    match findCI "mark".data r1 with
    | none => false
    | some r2 => (findCI "ask".data r2).isSome

/-- The optional group (?:\s*\(size:\s*([\d.]+)\))? of the bid/ask regexes. -/
def sizeGroupAt (s : List Char) : Option (List Char) := do
  let s1 ← matchCI "(size:".data (wsStar s)
  let pr ← tokPlus isDigitDot (wsStar s1)
  let _ ← expectChar ')' pr.2
  some pr.1

/-- Attempt of label:\s*([\d.]+)(?:\s*\(size:\s*([\d.]+)\))? with IGNORECASE for the
bid and ask lines (report_generator.py lines 1260, 1270). -/
def quoteTryAt (label : List Char) (s : List Char) :
    Option (List Char × Option (List Char)) := do
  let s1 ← matchCI label s
  let pr ← tokPlus isDigitDot (wsStar s1)
  some (pr.1, sizeGroupAt pr.2)

def bidValMatch (line : List Char) : Option (List Char × Option (List Char)) :=
  scanPos (quoteTryAt "bid:".data) line

def askValMatch (line : List Char) : Option (List Char × Option (List Char)) :=
  scanPos (quoteTryAt "ask:".data) line

/-- Attempt of mark:\s*([\d.]+) with IGNORECASE (report_generator.py line 1266). -/
def markTryAt (s : List Char) : Option (List Char) := do
  let s1 ← matchCI "mark:".data s
  let pr ← tokPlus isDigitDot (wsStar s1)
  some pr.1

def markValMatch (line : List Char) : Option (List Char) := scanPos markTryAt line

/-- Test of re.search(r'-\d+-[PC]$', contract) (report_generator.py lines 1205, 1285):
the contract ends in a hyphen, one or more digits, a hyphen and a capital P or C. -/
def optionsSuffixTest (c : List Char) : Bool :=
  match c.reverse with
  | p :: '-' :: r =>
    if p = 'P' ∨ p = 'C' then
      let q := r.span isDigitC
      !q.1.isEmpty && (match q.2 with | '-' :: _ => true | _ => false)
    else false
  | _ => false

/-- Classification of a finished leg by its contract name (report_generator.py lines
1197-1211, textually duplicated at 1277-1291): the PERPETUAL/PERP and FUTURES/FUT
substring tests run first, then the options-suffix test, with FUTURES as fallback. -/
def classify_contract (c : List Char) : String :=
  if containsCIs "PERPETUAL" c || containsCIs "PERP" c then "PERPETUAL"
  else if containsCIs "FUTURES" c || containsCIs "FUT" c then "FUTURES"
  else if optionsSuffixTest c then "OPTIONS"
  else "FUTURES"

/-- One extracted leg (the current_leg dict of report_generator.py lines 1218-1233);
instrument_type is filled in when the leg is flushed. -/
structure Leg where
  contract : String
  side : String
  volume : Dec
  price_btc : Option Dec := none
  price_usd : Option Dec := none
  total_btc : Option Dec := none
  total_usd : Option Dec := none
  iv : Option Dec := none
  ref_spot_usd : Option Dec := none
  bid : Option Dec := none
  bid_size : Option Dec := none
  mark : Option Dec := none
  ask : Option Dec := none
  ask_size : Option Dec := none
  instrument_type : String := ""
deriving Repr, DecidableEq

/-- Lift an optional float conversion into the parse monad; none models a ValueError
escaping parse_block_trade_message. -/
def toParse : Option α → Except Unit α
  | some a => .ok a
  | none => .error ()

/-- The at-price extraction of the Bought/Sold line (report_generator.py lines
1236-1239), native (BTC-denominated) capture: float() can raise; no match leaves the
field None. -/
def legPriceNative (line : List Char) : Except Unit (Option Dec) :=
  match atPriceBtcMatch line with
  | none => .ok none
  | some pr =>
    match pyFloat pr.1 with
    | none => .error ()
    | some v => .ok (some v)

/-- The Total extraction of the Bought/Sold line (report_generator.py lines 1242-1245),
native capture: float() can raise. -/
def legTotalNative (line : List Char) : Except Unit (Option Dec) :=
  match totalBtcLegMatch line with
  | none => .ok none
  | some pr =>
    match pyFloat pr.1 with
    | none => .error ()
    | some v => .ok (some v)

/-- The IV extraction of the Bought/Sold line (report_generator.py lines 1248-1250). -/
def legIvField (line : List Char) : Except Unit (Option Dec) :=
  match ivLegMatch line with
  | none => .ok none
  | some t =>
    match pyFloat t with
    | none => .error ()
    | some v => .ok (some v)

/-- The Ref extraction of the Bought/Sold line (report_generator.py lines 1253-1255);
the capture has its commas stripped before float(). -/
def legRefField (line : List Char) : Except Unit (Option Dec) :=
  match refLegMatch line with
  | none => .ok none
  | some t =>
    match pyFloat (t.filter (fun c => c ≠ ',')) with
    | none => .error ()
    | some v => .ok (some v)

/-- Build the new leg from its Bought/Sold line (report_generator.py lines 1213-1255):
side, volume and contract from the leg regex, then price, total, IV and Ref extracted
from the same line. The float conversions of the volume, native price, native total, IV
and Ref captures can raise; the USD captures go through parse_amount_with_suffix, which
cannot. -/
def mkLeg (line : List Char) (isBought : Bool) (volTok contract : List Char) :
    Except Unit Leg := do
  let vol ← toParse (pyFloat volTok)
  let pB ← legPriceNative line
  let tB ← legTotalNative line
  let ivv ← legIvField line
  let rf ← legRefField line
  pure { contract := contract.asString
         side := if isBought then "LONG" else "SHORT"
         volume := vol
         price_btc := pB
         price_usd := (atPriceBtcMatch line).bind (fun pr => parse_amount_with_suffix pr.2)
         total_btc := tB
         total_usd := (totalBtcLegMatch line).bind (fun pr => parse_amount_with_suffix pr.2)
         iv := ivv, ref_spot_usd := rf }

/-- The bid update of a quote line (report_generator.py lines 1260-1264). -/
def updBid (line : List Char) (leg : Leg) : Except Unit Leg :=
  match bidValMatch line with
  | none => .ok leg
  | some pr =>
    match pyFloat pr.1 with
    | none => .error ()
    | some b =>
      match pr.2 with
      | none => .ok { leg with bid := some b }
      | some t =>
        match pyFloat t with
        | none => .error ()
        | some bs => .ok { leg with bid := some b, bid_size := some bs }

/-- The mark update of a quote line (report_generator.py lines 1266-1268). -/
def updMark (line : List Char) (leg : Leg) : Except Unit Leg :=
  match markValMatch line with
  | none => .ok leg
  | some t =>
    match pyFloat t with
    | none => .error ()
    | some m => .ok { leg with mark := some m }

/-- The ask update of a quote line (report_generator.py lines 1270-1274). -/
def updAsk (line : List Char) (leg : Leg) : Except Unit Leg :=
  match askValMatch line with
  | none => .ok leg
  | some pr =>
    match pyFloat pr.1 with
    | none => .error ()
    | some av =>
      match pr.2 with
      | none => .ok { leg with ask := some av }
      | some t =>
        match pyFloat t with
        | none => .error ()
        | some asz => .ok { leg with ask := some av, ask_size := some asz }

/-- Update the accumulating leg from a quote line (report_generator.py lines 1258-1274):
bid, mark and ask with their optional sizes; every float conversion can raise. -/
def updQuote (line : List Char) (leg : Leg) : Except Unit Leg := do
  let leg1 ← updBid line leg
  let leg2 ← updMark line leg1
  updAsk line leg2

/-- Accumulator of the line loop: finished options legs, finished non-options legs
(appended in encounter order), and the in-progress leg. -/
structure LoopState where
  opts : List Leg
  nonOpts : List Leg
  cur : Option Leg
deriving Repr, DecidableEq

/-- Flush the in-progress leg: classify its contract and append it to options_legs or
non_options_legs (report_generator.py lines 1196-1211 and 1276-1291). -/
def flushCur (st : LoopState) : LoopState :=
  match st.cur with
  | none => st
  | some leg =>
    let k := classify_contract leg.contract.data
    let leg1 := { leg with instrument_type := k }
    if k = "OPTIONS" then ⟨st.opts ++ [leg1], st.nonOpts, none⟩
    else ⟨st.opts, st.nonOpts ++ [leg1], none⟩

/-- One iteration of the line loop (report_generator.py lines 1190-1274): a leg line
flushes the previous leg and starts a new one; otherwise a quote line (only when a leg
is accumulating) updates it; any other line is ignored. -/
def processLine (st : LoopState) (line : List Char) : Except Unit LoopState :=
  match legLineMatch line with
  | some g => do
    let st1 := flushCur st
    let leg ← mkLeg line g.1 g.2.1 g.2.2
    pure { st1 with cur := some leg }
  | none =>
    match st.cur with
    | some leg =>
      if quoteLineTest line then do
        let leg1 ← updQuote line leg
        pure { st with cur := some leg1 }
      else pure st
    | none => pure st

def runLines : LoopState → List (List Char) → Except Unit LoopState
  | st, [] => pure st
  | st, l :: ls => do
    let st1 ← processLine st l
    runLines st1 ls

/-! Global (whole-text) extraction steps of parse_block_trade_message. -/

/-- Attempt of (\d+\.?\d*)\s*x (report_generator.py line 928, case-sensitive) at one
position; the token always converts. -/
def volTryAt (s : List Char) : Option Dec := do
  let pr ← tokPlus isDigitC s
  let md := match pr.2 with
    | '.' :: r => let q := r.span isDigitC; ('.' :: q.1, q.2)
    | _ => (([] : List Char), pr.2)
  let _ ← expectChar 'x' (wsStar md.2)
  pyFloat (pr.1 ++ md.1)

def globalVolume (tl : List Char) : Dec := (scanPos volTryAt tl).getD 0

/-- Attempt of Total (?:Bought|Sold):[^\$]*\$([0-9,.]+[KMB]?) (report_generator.py line
941) at one position: after the colon the greedy [^$]* run ends exactly at the first
dollar sign, then the amount token with its optional suffix letter is captured. Returns
the capture and the remainder after the match, for the non-overlapping findall. -/
def amountTryAt (s : List Char) : Option (List Char × List Char) := do
  let s1 ← matchLit "Total ".data s
  let s2 ← (matchLit "Bought".data s1).orElse (fun _ => matchLit "Sold".data s1)
  let s3 ← expectChar ':' s2
  let s4 := (s3.span (fun c => c ≠ '$')).2
  let s5 ← expectChar '$' s4
  let pr ← tokPlus isNumCommaDot s5
  match pr.2 with
  | c :: r => if c = 'K' ∨ c = 'M' ∨ c = 'B' then some (pr.1 ++ [c], r) else some pr
  | [] => some pr

/-- re.findall of the Total-amount regex: collect non-overlapping matches left to right.
The fuel argument (instantiated with length + 1) only serves termination; every step
consumes at least one character. -/
def findAllAmounts : Nat → List Char → List (List Char)
  | 0, _ => []
  | _ + 1, [] => []
  | fuel + 1, c :: t =>
    match amountTryAt (c :: t) with
    | some pr => pr.1 :: findAllAmounts fuel pr.2
    | none => findAllAmounts fuel t

/-- The global amount_usd step (report_generator.py lines 939-962): the maximum of the
parsed Total amounts, 0.0 when there is no match. -/
def globalAmountUsd (tl : List Char) : Dec :=
  match (findAllAmounts (tl.length + 1) tl).map parse_amount_global with
  | [] => 0
  | a :: rest => rest.foldl max a

/-- Attempt of at\s+([\d,.]+)\s*u\s*\(\$([0-9,.]+[KMB]?)\) for a unit character u
(report_generator.py lines 1082 and 1090 with u the ₿ or Ξ sign, case-sensitive) at one
position. Only whether it matches is observable: the branch it guards does no
conversion. The [0-9,.] class, the optional [KMB] letter and the closing parenthesis
are pairwise disjoint, so the regex backtracking cannot succeed where this direct
matcher fails. -/
def atPriceGlobalTryAt (u : Char) (s : List Char) : Option Unit := do
  let s1 ← matchLit "at".data s
  let s2 ← wsPlus s1
  let pr ← tokPlus isNumCommaDot s2
  let s4 ← expectChar u (wsStar pr.2)
  let s5 ← expectChar '(' (wsStar s4)
  let s6 ← expectChar '$' s5
  let pr2 ← tokPlus isNumCommaDot s6
  let s8 := match pr2.2 with
    | c :: r => if c = 'K' ∨ c = 'M' ∨ c = 'B' then r else pr2.2
    | [] => pr2.2
  let _ ← expectChar ')' s8
  some ()

/-- Attempt of Total (?:Bought|Sold):\s*([\d,.]+)\s*u\s*\(\$([0-9,.]+[KMB]?)\) for a
unit character u (report_generator.py lines 1124 and 1125, case-sensitive) at one
position; returns the native capture, whose commas are stripped before the unguarded
float() of lines 1128 and 1137. -/
def totalGlobalTryAt (u : Char) (s : List Char) : Option (List Char) := do
  let s1 ← matchLit "Total ".data s
  let s2 ← (matchLit "Bought".data s1).orElse (fun _ => matchLit "Sold".data s1)
  let s3 ← expectChar ':' s2
  let pr ← tokPlus isNumCommaDot (wsStar s3)
  let s5 ← expectChar u (wsStar pr.2)
  let s6 ← expectChar '(' (wsStar s5)
  let s7 ← expectChar '$' s6
  let pr2 ← tokPlus isNumCommaDot s7
  let s9 := match pr2.2 with
    | c :: r => if c = 'K' ∨ c = 'M' ∨ c = 'B' then r else pr2.2
    | [] => pr2.2
  let _ ← expectChar ')' s9
  some pr.1

/-- The global price-inference step (report_generator.py lines 1076-1144), modelled for
its raise behaviour only (its price_native/price_usd/price/price_inferred outputs feed
no modelled field). When either at-price regex (lines 1082, 1090) matches, both price
strings are set nonempty and the step ends without converting anything. Otherwise, when
the global Total regex in ₿ (line 1124, preferred at line 1127) or else in Ξ (lines
1125, 1136) matches and the global volume is positive, the native capture has its
commas stripped and goes through an unguarded float() (lines 1128, 1137), which raises
on a malformed token; the USD capture goes through the guarded local parse_amount and
the division by the positive volume cannot raise. -/
def priceInferStep (tl : List Char) (vol : Dec) : Except Unit Unit :=
  if (scanPos (atPriceGlobalTryAt '₿') tl).isSome
      ∨ (scanPos (atPriceGlobalTryAt 'Ξ') tl).isSome then
    .ok ()
  else
    match scanPos (totalGlobalTryAt '₿') tl with
    | some tok =>
      if (0 : Dec) < vol then
        match pyFloat (tok.filter (fun c => c ≠ ',')) with
        | some _ => .ok ()
        | none => .error ()
      else .ok ()
    | none =>
      match scanPos (totalGlobalTryAt 'Ξ') tl with
      | some tok =>
        if (0 : Dec) < vol then
          match pyFloat (tok.filter (fun c => c ≠ ',')) with
          | some _ => .ok ()
          | none => .error ()
        else .ok ()
      | none => .ok ()

/-- Attempt of (BTC|ETH)-\d{1,2}[A-Z]{3}\d{2,4}-\d+-[PC] (report_generator.py line 887,
case-sensitive) at one position. The bounded digit groups cannot usefully backtrack
into letters, so the greedy runs must themselves satisfy the length bounds. -/
def optionContractGlobalAt (s : List Char) : Option Unit := do
  let s1 ← (matchLit "BTC-".data s).orElse (fun _ => matchLit "ETH-".data s)
  let pr ← tokPlus isDigitC s1
  if pr.1.length > 2 then none else
  match pr.2 with
  | a :: b :: c :: s3 =>
    if isUpperC a && isUpperC b && isUpperC c then do
      let pr2 ← tokPlus isDigitC s3
      if pr2.1.length < 2 ∨ pr2.1.length > 4 then none else do
      let s5 ← expectChar '-' pr2.2
      let pr3 ← tokPlus isDigitC s5
      let s7 ← expectChar '-' pr3.2
      match s7 with
      | p :: _ => if p = 'P' ∨ p = 'C' then some () else none
      | [] => none
    else none
  | _ => none

/-- The global instrument-type step (report_generator.py lines 880-888). -/
def instrument_type_global (tl : List Char) : String :=
  if containsCIs "PERPETUAL" tl || containsCIs "PERP" tl then "PERPETUAL"
  else if containsCIs "FUTURES" tl || containsCIs "-FUT" tl then "FUTURES"
  else if containsCIs "PUT" tl || containsCIs "CALL" tl then "OPTIONS"
  else if (scanPos optionContractGlobalAt tl).isSome then "OPTIONS"
  else "Unknown"

/-- The asset step (report_generator.py lines 874-878). -/
def asset_of (tl : List Char) : String :=
  if containsCIs "BTC" tl then "BTC"
  else if containsCIs "ETH" tl then "ETH"
  else "Unknown"

/-- The exchange step (report_generator.py lines 932-937), first hit in list order. -/
def exchange_of (tl : List Char) : String :=
  if containsCIs "Deribit" tl then "Deribit"
  else if containsCIs "OKX" tl then "OKX"
  else if containsCIs "Binance" tl then "Binance"
  else if containsCIs "Bybit" tl then "Bybit"
  else "Unknown"

/-- The parsed-trade record, restricted to the fields the settled claims depend on. -/
structure TradeInfo where
  asset : String
  instrument_type : String
  exchange : String
  volume : Dec
  amount_usd : Dec
  options_legs : List Leg
  non_options_legs : List Leg
  options_sum : Dec
  options_max : Dec
  options_count : Nat
  instrument_type_derived : String
deriving Repr, DecidableEq

/-- Split on newline characters, keeping empty pieces, as Python text.split with a
newline separator does. -/
def splitLinesChars : List Char → List (List Char)
  | [] => [[]]
  | c :: t =>
    if c = '\n' then [] :: splitLinesChars t
    else
      match splitLinesChars t with
      | l :: ls => (c :: l) :: ls
      | [] => [[c]]

def splitLines (text : String) : List (List Char) := splitLinesChars text.data

def emptyTradeInfo : TradeInfo :=
  ⟨"Unknown", "Unknown", "Unknown", 0, 0, [], [], 0, 0, 0, "Unknown"⟩

/-- Shallow embedding of parse_block_trade_message (report_generator.py lines 826-1330).
Modelled steps: the empty-text early return, asset, global instrument type, global
volume, exchange, global amount_usd, the global price-inference step (for its raise
behaviour: its unguarded float() calls at lines 1128 and 1137 are the only conversions
of the pre-loop steps that can propagate a ValueError), the per-line leg loop and the
derived leg fields (options_sum, options_max, options_count, instrument_type_derived).
The strategy/side, greeks, global contract/iv/ask/mark/premium/ref and strategy_title
steps are omitted: in the source each of them either wraps its conversions in
try/except or does no conversion at all (pure string formatting of its captures, or a
float() on a capture of class \d+\.?\d* that always converts), no settled claim reads
their output fields, and they do not influence the modelled fields. A .error result
models a ValueError escaping the function (which the source does not catch inside
parse_block_trade_message); the source raises at step 8 before entering the leg loop,
and the model checks priceInferStep first accordingly. -/
def parse_block_trade_message (text : String) : Except Unit TradeInfo :=
  if text.data.isEmpty then .ok emptyTradeInfo
  else
    let tl := text.data
    match priceInferStep text.data (globalVolume text.data) with
    | .error e => .error e
    | .ok _ =>
    match runLines ⟨[], [], none⟩ (splitLines text) with
    | .error e => .error e
    | .ok st0 =>
      let st := flushCur st0
      .ok { asset := asset_of tl
            instrument_type := instrument_type_global tl
            exchange := exchange_of tl
            volume := globalVolume tl
            amount_usd := globalAmountUsd tl
            options_legs := st.opts
            non_options_legs := st.nonOpts
            options_sum := (st.opts.map Leg.volume).foldl (· + ·) 0
            options_max := (st.opts.map Leg.volume).foldl max 0
            options_count := st.opts.length
            instrument_type_derived :=
              if !st.opts.isEmpty then "OPTIONS"
              else
                match st.nonOpts with
                | l :: _ => l.instrument_type
                | [] => instrument_type_global tl }

/-! Real-time alert decision (message_listener.py send_alert_email). -/

/-- The configuration surface read by send_alert_email (config.py lines 66-97). -/
structure AlertConfig where
  volumeAlertEnabled : Bool
  emailEnabled : Bool
  monitoredExchange : String
  btcVolumeThreshold : Dec
  ethVolumeThreshold : Dec
  ethVolumeThresholdTest : Dec
  alertTestMode : Bool
deriving Repr, DecidableEq

/-- A configuration with both enable switches on and the default thresholds of
config.py (BTC 200, ETH 5000, ETH test 1000, monitored exchange Deribit). -/
def alertConfigEnabled : AlertConfig := ⟨true, true, "Deribit", 200, 5000, 1000, false⟩

/-- The premium fields send_alert_email reads from the parsed dict with
trade_info.get(key, None) (message_listener.py lines 193-196). No code in the
repository ever writes the keys premium_paid_usd, premium_received_usd,
net_premium_usd or abs_net_premium_usd into the dict returned by
parse_block_trade_message, so each lookup yields None; the faithful embedding of the
lookups is therefore the constant none. -/
def premium_paid_seen (_t : TradeInfo) : Option Dec := none

/-- See premium_paid_seen: the premium_received_usd lookup, always None. -/
def premium_received_seen (_t : TradeInfo) : Option Dec := none

/-- See premium_paid_seen: the net_premium_usd lookup, always None. -/
def net_premium_seen (_t : TradeInfo) : Option Dec := none

/-- See premium_paid_seen: the abs_net_premium_usd lookup, always None. -/
def abs_net_premium_seen (_t : TradeInfo) : Option Dec := none

/-- The hard-coded premium threshold (message_listener.py line 197). -/
def premium_threshold_usd : Dec := 1000000

structure AlertOutcome where
  sent : Bool
  reasons : List String
  volumeTrigger : Bool
  premiumTrigger : Bool
  skipReason : Option String
deriving Repr, DecidableEq

def skipOutcome (r : String) : AlertOutcome := ⟨false, [], false, false, some r⟩

/-- Threshold resolution of send_alert_email (message_listener.py lines 178-189): fixed
for BTC; for ETH the test-mode value when test mode is on, else the production value;
none models the unknown-asset skip. -/
def resolveVolumeThreshold (cfg : AlertConfig) (asset : String) : Option Dec :=
  if asset = "BTC" then some cfg.btcVolumeThreshold
  else if asset = "ETH" then
    some (if cfg.alertTestMode then cfg.ethVolumeThresholdTest else cfg.ethVolumeThreshold)
  else none

/-- Shallow embedding of the decision portion of send_alert_email (message_listener.py
lines 135-260): the two enable guards, the option-legs guard, the exchange guard, the
per-asset threshold resolution (whose failure is the unknown-asset guard), the volume
and premium triggers, and the reasons list of the single combined email. -/
def send_alert_decision (cfg : AlertConfig) (t : TradeInfo) : AlertOutcome :=
  if !cfg.volumeAlertEnabled then skipOutcome "volume_alert_disabled"
  else if !cfg.emailEnabled then skipOutcome "email_disabled"
  else if t.options_legs.isEmpty || t.options_count == 0 then skipOutcome "no_option_legs"
  else if t.exchange ≠ cfg.monitoredExchange then skipOutcome "wrong_exchange"
  else
    match resolveVolumeThreshold cfg t.asset with
    | none => skipOutcome "unknown_asset"
    | some thr =>
      let vt : Bool := decide (thr < t.options_sum)
      let pt : Bool :=
        match abs_net_premium_seen t with
        | some a => decide (premium_threshold_usd ≤ a)
        | none => false
      if vt || pt then
        ⟨true, (if vt then ["volume"] else []) ++ (if pt then ["premium"] else []),
          vt, pt, none⟩
      else ⟨false, [], vt, pt, some "both_below_threshold"⟩

/-! Daily aggregation (normalize_block_trades and build_daily_report_data). -/

/-- A raw message row as handed to the report pipeline (database.py Message). -/
structure MsgRow where
  message_id : Nat
  date : Int
  text : String
deriving Repr, DecidableEq

/-- A normalized trade entry, restricted to the fields the settled claims use. -/
structure NormTrade where
  asset : String
  volume : Dec
  amount_usd : Dec
  ts : Option Int
  options_count : Nat
deriving Repr, DecidableEq

/-- The entry normalize_block_trades builds for one successfully parsed trade
(report_generator.py lines 40-96): with at least one options leg the displayed volume
is options_sum and the amount is the sum of the truthy leg total_usd values, falling
back to the global amount when that sum is zero; without options legs the global
volume and amount are used. -/
def normalizeEntry (m : MsgRow) (p : TradeInfo) : NormTrade :=
  let volume_display := if p.options_legs.length ≥ 1 then p.options_sum else p.volume
  let sum_tot :=
    (((p.options_legs.filterMap Leg.total_usd).filter (fun v => v ≠ 0)).foldl (· + ·) 0)
  let amount_usd_display :=
    if p.options_legs.length ≥ 1 then (if sum_tot = 0 then p.amount_usd else sum_tot)
    else p.amount_usd
  { asset := p.asset, volume := volume_display, amount_usd := amount_usd_display,
    ts := some m.date, options_count := p.options_legs.length }

/-- The default entry appended by the except branch of normalize_block_trades
(report_generator.py lines 97-119) when parsing raises. -/
def normalizeDefaultEntry (_m : MsgRow) : NormTrade :=
  { asset := "Unknown", volume := 0, amount_usd := 0, ts := none, options_count := 0 }

/-- Shallow embedding of normalize_block_trades (report_generator.py lines 16-120).
With filter_non_options set, a successfully parsed trade whose text-level
instrument_type is FUTURES or PERPETUAL is skipped; a parse exception falls into the
except branch, which appends a default entry and therefore bypasses the filter. -/
def normalize_block_trades (ms : List MsgRow) (filter_non_options : Bool) :
    List NormTrade :=
  match ms with
  | [] => []
  | m :: rest =>
    (match parse_block_trade_message m.text with
     | .error _ => [normalizeDefaultEntry m]
     | .ok p =>
       if filter_non_options &&
           (p.instrument_type == "FUTURES" || p.instrument_type == "PERPETUAL") then []
       else [normalizeEntry m p]) ++ normalize_block_trades rest filter_non_options

/-- Whether a message contributes an entry to the options-only statistics list
(the filter_non_options=true call of report_generator.py line 148): parse failures
contribute a default entry; parsed trades contribute iff their text-level
instrument_type is neither FUTURES nor PERPETUAL. -/
def includedInStats (m : MsgRow) : Bool :=
  match parse_block_trade_message m.text with
  | .error _ => true
  | .ok p => !(p.instrument_type == "FUTURES" || p.instrument_type == "PERPETUAL")

/-- Stable descending insertion modelling Python sorted(key=volume, reverse=True): an
element is inserted before the first element with strictly smaller volume and after all
elements with greater-or-equal volume, so equal-volume elements keep their original
relative order. -/
def insertVolDesc (x : NormTrade) : List NormTrade → List NormTrade
  | [] => [x]
  | y :: ys => if x.volume ≥ y.volume then x :: y :: ys else y :: insertVolDesc x ys

def sortVolDesc : List NormTrade → List NormTrade
  | [] => []
  | x :: xs => insertVolDesc x (sortVolDesc xs)

/-- The per-asset topByVolume ranking of build_daily_report_data (report_generator.py
lines 180-185): filter to the asset, stable sort by volume descending, truncate to the
top N. The input list arrives in the order produced by get_block_trades_by_date_range,
which sorts by date descending (database.py lines 433-437). -/
def top_by_volume (asset : String) (trades : List NormTrade) (top_limit : Nat) :
    List NormTrade :=
  (sortVolDesc (trades.filter (fun t => t.asset == asset))).take top_limit

/-! Spot-price resolution (extract_spot_prices). -/

/-- The spot-tag message filter (report_generator.py lines 613-614). -/
def isSpotTag (t : String) : Bool :=
  containsSub "🏷️ Spot Prices".data t.data || containsSub "🏷️Spot Prices".data t.data

/-- Attempt of \$?\s*([0-9,]+\.?[0-9]*) at the current position, returning the capture.
When the head is a dollar sign only the consuming branch of \$? can reach a digit, so
the optional group collapses to a single branch. -/
def spotNumAt (s : List Char) : Option (List Char) :=
  let cap : List Char → Option (List Char) := fun u =>
    match tokPlus isNumComma u with
    | none => none
    | some pr =>
      match pr.2 with
      | '.' :: r2 => let q := r2.span isDigitC; some (pr.1 ++ '.' :: q.1)
      | _ => some pr.1
  match s with
  | '$' :: r => cap (wsStar r)
  | _ => cap (wsStar s)

/-- Greedy backtracking of the [^\d$]* run: the largest consumption is tried first,
shrinking one character at a time, as the regex engine does. -/
def spotBacktrack (s1 : List Char) : Nat → Option (List Char)
  | 0 => spotNumAt s1
  | k + 1 =>
    match spotNumAt (s1.drop (k + 1)) with
    | some c => some c
    | none => spotBacktrack s1 k

/-- Attempt of tag[^\d$]*\$?\s*([0-9,]+\.?[0-9]*) with IGNORECASE (report_generator.py
lines 579, 590) at one position. -/
def spotTagTryAt (tag : List Char) (s : List Char) : Option (List Char) := do
  let s1 ← matchCI tag s
  let run := s1.takeWhile (fun c => !(isDigitC c) && c ≠ '$')
  spotBacktrack s1 run.length

def spotTagCapture (tag : List Char) (tl : List Char) : Option (List Char) :=
  scanPos (spotTagTryAt tag) tl

/-- The BTC half of parse_spot_message (report_generator.py lines 578-587): capture,
convert (a failed float conversion is caught and leaves the price at None), and
range-validate against 1000-200000, discarding out-of-band values as not found. -/
def spotPriceBTC (tl : List Char) : Option Dec :=
  match spotTagCapture "BTC".data tl with
  | none => none
  | some cap =>
    match pyFloat (cap.filter (fun c => c ≠ ',')) with
    | none => none
    | some v => if 1000 < v ∧ v < 200000 then some v else none

/-- The ETH half of parse_spot_message (report_generator.py lines 589-598), with the
100-10000 band. -/
def spotPriceETH (tl : List Char) : Option Dec :=
  match spotTagCapture "ETH".data tl with
  | none => none
  | some cap =>
    match pyFloat (cap.filter (fun c => c ≠ ',')) with
    | none => none
    | some v => if 100 < v ∧ v < 10000 then some v else none

/-- Shallow embedding of parse_spot_message (report_generator.py lines 573-600). -/
def parse_spot_message (text : String) : Option Dec × Option Dec :=
  (spotPriceBTC text.data, spotPriceETH text.data)

def isRefSep (c : Char) : Bool := c = '*' || c = ':' || c = '：' || isSpaceC c

def refNumAt (s : List Char) : Option (List Char) := do
  let s1 ← expectChar '$' s
  let pr ← tokPlus isNumCommaDot s1
  some pr.1

/-- Greedy backtracking of the separator class repetition {1,5}: at least one
separator character must be consumed. -/
def refBacktrack (s1 : List Char) : Nat → Option (List Char)
  | 0 => none
  | k + 1 =>
    match refNumAt (s1.drop (k + 1)) with
    | some c => some c
    | none => refBacktrack s1 k

/-- Attempt of (?:Ref|REF)[\*:\s：]{1,5}\$([0-9,.]+) with IGNORECASE
(report_generator.py lines 661, 1148) at one position. -/
def refTryGlobalAt (s : List Char) : Option (List Char) := do
  let s1 ← matchCI "Ref".data s
  let run := s1.takeWhile isRefSep
  refBacktrack s1 (min run.length 5)

def refGlobalMatch (tl : List Char) : Option (List Char) := scanPos refTryGlobalAt tl

structure SpotResult where
  btc : Option Dec
  eth : Option Dec
  spot_source : String
  source_msg_id : Option Nat
deriving Repr, DecidableEq

/-- Latest message by date: models sorted(msgs, key=date, reverse=True)[0]; the stable
sort keeps the first-encountered message among equal dates. -/
def pickLatest : List MsgRow → Option MsgRow
  | [] => none
  | m :: rest =>
    match pickLatest rest with
    | none => some m
    | some b => if b.date > m.date then some b else some m

structure RefCand where
  msg : MsgRow
  asset : String
  ref_price : Dec
deriving Repr, DecidableEq

/-- One message considered by the Ref fallback of extract_spot_prices
(report_generator.py lines 657-682): a Ref price whose float conversion succeeds (a
ValueError is caught and skips the message), an asset inferred from the text, and a
date inside the window. No range validation is applied on this path. -/
def refCandidate (s e : Int) (m : MsgRow) : Option RefCand :=
  match refGlobalMatch m.text.data with
  | none => none
  | some cap =>
    match pyFloat (cap.filter (fun c => c ≠ ',')) with
    | none => none
    | some v =>
      let asset :=
        if containsCIs "BTC" m.text.data then some "BTC"
        else if containsCIs "ETH" m.text.data then some "ETH"
        else none
      match asset with
      | none => none
      | some a => if decide (s ≤ m.date ∧ m.date ≤ e) then some ⟨m, a, v⟩ else none

def pickLatestCand : List RefCand → Option RefCand
  | [] => none
  | c :: rest =>
    match pickLatestCand rest with
    | none => some c
    | some b => if b.msg.date > c.msg.date then some b else some c

/-- The in-window Ref candidates of the fallback step. -/
def refCands (msgs : List MsgRow) (s e : Int) : List RefCand :=
  msgs.filterMap (refCandidate s e)

/-- Assemble the ref-fallback result from the newest BTC and newest ETH candidate;
the representative message is the BTC one when present, else the ETH one
(report_generator.py lines 704-717). -/
def refMkResult : Option RefCand → Option RefCand → Option SpotResult
  | none, none => none
  | bc, ec =>
    some { btc := bc.map RefCand.ref_price, eth := ec.map RefCand.ref_price,
           spot_source := "ref_fallback",
           source_msg_id :=
             match bc with
             | some c => some c.msg.message_id
             | none => ec.map (fun c => c.msg.message_id) }

/-- The Ref fallback step of extract_spot_prices (report_generator.py lines 684-717):
the walk over the date-descending stable sort takes, per asset, the newest candidate
(first-encountered among equal dates), which pickLatestCand over the per-asset
filtering computes directly. -/
def refFallback (msgs : List MsgRow) (s e : Int) : Option SpotResult :=
  if (refCands msgs s e).isEmpty then none
  else
    refMkResult
      (pickLatestCand ((refCands msgs s e).filter (fun c => c.asset == "BTC")))
      (pickLatestCand ((refCands msgs s e).filter (fun c => c.asset == "ETH")))

/-- The spot-tag message filter of extract_spot_prices (report_generator.py lines
613-614). -/
def spotTagMsgs (msgs : List MsgRow) : List MsgRow :=
  msgs.filter (fun m => isSpotTag m.text)

/-- Shallow embedding of extract_spot_prices (report_generator.py lines 546-727):
latest spot-tag message inside the window, else latest spot-tag message before the
window, else the in-window Ref fallback, else missing. -/
def extract_spot_prices (msgs : List MsgRow) (s e : Int) : SpotResult :=
  match pickLatest ((spotTagMsgs msgs).filter (fun m => decide (s ≤ m.date ∧ m.date ≤ e))) with
  | some m =>
    { btc := (parse_spot_message m.text).1, eth := (parse_spot_message m.text).2,
      spot_source := "spot_prices_tag", source_msg_id := some m.message_id }
  | none =>
    match pickLatest ((spotTagMsgs msgs).filter (fun m => decide (m.date < s))) with
    | some m =>
      { btc := (parse_spot_message m.text).1, eth := (parse_spot_message m.text).2,
        spot_source := "spot_prices_fallback", source_msg_id := some m.message_id }
    | none =>
      match refFallback msgs s e with
      | some r => r
      | none => ⟨none, none, "missing", none⟩

/-! Delivery ledger (send_pending_daily_reports). -/

structure LedgerRow where
  report_date : Nat
  is_sent : Bool
  sent_at : Option Nat
deriving Repr, DecidableEq

def pickLatestRow : List LedgerRow → Option LedgerRow
  | [] => none
  | r :: rest =>
    match pickLatestRow rest with
    | none => some r
    | some b => if b.report_date > r.report_date then some b else some r

/-- The candidate query of send_pending_daily_reports (report_generator.py lines
1854-1859): among rows with is_sent false, the one with the maximum report_date. -/
def selectSendCandidate (rows : List LedgerRow) : Option LedgerRow :=
  pickLatestRow (rows.filter (fun r => !r.is_sent))

def markRow (d : Nat) (now : Nat) (r : LedgerRow) : LedgerRow :=
  if r.report_date = d then { r with is_sent := true, sent_at := some now } else r

/-- Shallow embedding of one run of send_pending_daily_reports (report_generator.py
lines 1834-1960): pick the newest pending report (backlog rows are only logged), skip
when there is no candidate, when the candidate is already sent, or when email is
disabled; on a successful send mark exactly the candidate row sent with the current
time; on a failed send leave every row unchanged. -/
def send_pending_daily_reports (rows : List LedgerRow) (emailEnabled sendOk : Bool)
    (now : Nat) : List LedgerRow :=
  match selectSendCandidate rows with
  | none => rows
  | some c =>
    if c.is_sent then rows
    else if !emailEnabled then rows
    else if sendOk then rows.map (markRow c.report_date now)
    else rows

/-! Message store (database.py save_message, message_listener.py handle_new_message). -/

structure StoredMsg where
  message_id : Nat
  date : Int
  text : String
  is_block_trade : Bool
deriving Repr, DecidableEq

/-- Shallow embedding of save_message (database.py lines 361-399): when a row with the
same message_id exists, return None and leave the store unchanged; otherwise append
the new row and return it. -/
def save_message (store : List StoredMsg) (message_id : Nat) (date : Int)
    (text : String) (is_block_trade : Bool) : Option StoredMsg × List StoredMsg :=
  if store.any (fun m => m.message_id == message_id) then (none, store)
  else
    let m : StoredMsg := ⟨message_id, date, text, is_block_trade⟩
    (some m, store ++ [m])

def block_trade_tag : String := "#block"

/-- Shallow embedding of MessageListener.handle_new_message (message_listener.py lines
42-87): compute the block-trade flag from the tag, save the message, and invoke the
alert path only when save_message returned a row and the flag is set. The Bool records
whether trigger_alert was invoked. -/
def handle_new_message (store : List StoredMsg) (message_id : Nat) (date : Int)
    (text : String) : List StoredMsg × Bool :=
  let ib := containsSub block_trade_tag.data text.data
  match save_message store message_id date text ib with
  | (some _, store1) => (store1, ib)
  | (none, store1) => (store1, false)

/-! Remaining definitions used by the claim theorems: order relations for the ranking
claim, the well-formedness predicate of the leg-loop numeric tokens, and the concrete
message texts of the counterexamples and witnesses. -/

/-- The trade a carries a strictly later timestamp than b, whenever both are known. -/
def tsAfter (a b : NormTrade) : Prop := ∀ x y, a.ts = some x → b.ts = some y → y < x

/-- The ranking order the pipeline actually produces: strictly greater volume first,
and among equal volumes the trade with the later timestamp first. Stated through the
rational value of the decimal volumes. -/
def volThenLater (a b : NormTrade) : Prop :=
  b.volume.toRat < a.volume.toRat ∨ (a.volume.toRat = b.volume.toRat ∧ tsAfter a b)

/-- Every numeric token the leg loop would pass to float() on this line converts: the
volume capture of a leg line together with its price/total/IV/Ref captures, and the
bid/mark/ask captures of a quote line. These are exactly the unguarded conversions of
report_generator.py lines 1215-1274. -/
def lineFloatsOk (line : List Char) : Bool :=
  match legLineMatch line with
  | some g =>
    (pyFloat g.2.1).isSome &&
    (match atPriceBtcMatch line with
     | some pr => (pyFloat pr.1).isSome
     | none => true) &&
    (match totalBtcLegMatch line with
     | some pr => (pyFloat pr.1).isSome
     | none => true) &&
    (match ivLegMatch line with
     | some tk => (pyFloat tk).isSome
     | none => true) &&
    (match refLegMatch line with
     | some tk => (pyFloat (tk.filter (fun c => c ≠ ','))).isSome
     | none => true)
  | none =>
    !(quoteLineTest line) ||
    ((match bidValMatch line with
      | some pr =>
        (pyFloat pr.1).isSome &&
        (match pr.2 with | some tk => (pyFloat tk).isSome | none => true)
      | none => true) &&
     (match markValMatch line with
      | some tk => (pyFloat tk).isSome
      | none => true) &&
     (match askValMatch line with
      | some pr =>
        (pyFloat pr.1).isSome &&
        (match pr.2 with | some tk => (pyFloat tk).isSome | none => true)
      | none => true))

/-- Two-leg options spread on the monitored exchange: a LONG leg with Total 100000 USD
and a SHORT leg with Total 80000 USD (the Scenario 4 shape of the specification). -/
def c1Text : String :=
  "**LONG BTC CALL SPREAD (10.0x):** Deribit\n🟢 Bought 10.0x BTC-27MAR26-100000-C at 0.1 ₿ ($10,000.00) Total Bought: 1.0 ₿ ($100K)\n🔴 Sold 10.0x BTC-27MAR26-120000-C at 0.08 ₿ ($8,000.00) Total Sold: 0.8 ₿ ($80K)"

/-- Multi-leg trade with one OPTIONS leg and one PERPETUAL hedge leg; the word
PERPETUAL therefore occurs in the message text. -/
def c5Text : String :=
  "**BTC STRATEGY:**\n🟢 Bought 10.0x BTC-27MAR26-100000-C at 0.1 ₿ ($10,000.00) Total Bought: 1.0 ₿ ($100K)\n🔴 Sold 10.0x BTC-PERPETUAL at 90000"

/-- A message whose global price-inference step raises: no at-price anywhere, a global
volume of 5, and a global Total in ₿ whose native capture 1.2.3 fails float(); its
lines carry no Bought/Sold leg and no quote line, so the per-line loop alone would
succeed. -/
def c5RaiseText : String := "PERP 5x\nTotal Bought: 1.2.3 ₿ ($100K)"

/-- A leg line whose price detail uses the Ξ (ETH-denominated) unit. -/
def c8XiText : String := "🔴 Sold 100.0x ETH-27MAR26-4000-C at 0.05 Ξ ($120.00)"

/-- A Bought/Sold clause with the malformed volume token 1.2.3x. -/
def c9Text : String := "🟢 Bought 1.2.3x BTC-27MAR26-100-P"

/-- A well-formed single-leg message (the Scenario 1 shape of the specification). -/
def c9GoodText : String :=
  "**LONG BTC CALL (250.0x):**\n🟢 Bought 250.0x BTC-27DEC24-110000-C at 0.0234 ₿ ($2,456.78)\nTotal Bought: 5.8500 ₿ ($614.20K), IV: 52.34%, Ref: $105234.56"

/-- The leg line of the C8 witness, carrying both an at-price and a Total in ₿. -/
def c8LineW : List Char :=
  "🟢 Bought 10.0x BTC-27MAR26-100000-C at 0.1 ₿ ($10,000.00) Total Bought: 1.0 ₿ ($100K)".data

/-- The leg mkLeg builds on the C8 witness line (the getD default is unreachable: the
build succeeds on this line). -/
def c8LegW : Leg :=
  ((mkLeg c8LineW true "10.0".data "BTC-27MAR26-100000-C".data).toOption).getD
    ⟨"", "", 0, none, none, none, none, none, none, none, none, none, none, none, ""⟩

/-- A parsed single-leg BTC options trade on the monitored exchange with options_sum
250, used to instantiate the alert-decision theorem. -/
def c2TradeW : TradeInfo :=
  ⟨"BTC", "OPTIONS", "Deribit", 250, 0,
    [⟨"BTC-27MAR26-100000-C", "LONG", 250, none, none, none, none, none, none, none,
      none, none, none, none, "OPTIONS"⟩],
    [], 250, 250, 1, "OPTIONS"⟩

/-- The record parse_block_trade_message computes on c1Text. -/
def c1Parsed : TradeInfo := ((parse_block_trade_message c1Text).toOption).getD emptyTradeInfo

/-- The record parse_block_trade_message computes on c5Text. -/
def c5Parsed : TradeInfo := ((parse_block_trade_message c5Text).toOption).getD emptyTradeInfo

/-- The record parse_block_trade_message computes on c8XiText. -/
def c8Parsed : TradeInfo := ((parse_block_trade_message c8XiText).toOption).getD emptyTradeInfo

/-- Equal-volume BTC trades with distinct timestamps for the ranking counterexample. -/
def c6A : NormTrade := ⟨"BTC", 10, 0, some 1, 1⟩

/-- See c6A; this trade carries the later timestamp. -/
def c6B : NormTrade := ⟨"BTC", 10, 0, some 2, 1⟩

/-! Claim theorems. -/

/-- C7 counterexample: the contract BTC-PERP-100-P matches the options suffix pattern
and contains PERP, and the code classifies it PERPETUAL, not OPTIONS — the substring
rules take priority over the suffix rule, contrary to the claim. -/
theorem C7_perp_suffix_counterexample :
    optionsSuffixTest "BTC-PERP-100-P".data = true ∧
    containsCIs "PERP" "BTC-PERP-100-P".data = true ∧
    classify_contract "BTC-PERP-100-P".data = "PERPETUAL" ∧
    classify_contract "BTC-PERP-100-P".data ≠ "OPTIONS" := by
  refine ⟨by decide, by decide, by decide, by decide⟩

/-- C7 amended: a contract matching the options suffix pattern is classified OPTIONS
provided it contains none of the PERPETUAL/PERP/FUTURES/FUT markers, which are tested
first (report_generator.py lines 1197-1211). -/
theorem C7_options_suffix_without_markers (c : List Char)
    (h1 : containsCIs "PERPETUAL" c = false) (h2 : containsCIs "PERP" c = false)
    (h3 : containsCIs "FUTURES" c = false) (h4 : containsCIs "FUT" c = false)
    (h5 : optionsSuffixTest c = true) :
    classify_contract c = "OPTIONS" := by
  unfold classify_contract
  simp [h1, h2, h3, h4, h5]

/-- Witness for the amended C7 theorem at a realistic dated options contract. -/
theorem C7_options_suffix_witness :
    classify_contract "BTC-27MAR26-100000-C".data = "OPTIONS" :=
  C7_options_suffix_without_markers _ (by decide) (by decide) (by decide) (by decide)
    (by decide)

/-- C10: saving a message whose message_id is already stored returns None, leaves the
store unchanged, triggers no alert in handle_new_message, and save_message preserves
distinctness of stored message_ids. -/
theorem C10_save_message_dedup (store : List StoredMsg) (mid : Nat) (d : Int)
    (t : String) (ib : Bool) :
    (store.any (fun m => m.message_id == mid) = true →
      save_message store mid d t ib = (none, store) ∧
      handle_new_message store mid d t = (store, false)) ∧
    ((store.map StoredMsg.message_id).Nodup →
      (((save_message store mid d t ib).2).map StoredMsg.message_id).Nodup) := by
  constructor
  · intro h
    constructor
    · unfold save_message
      simp [h]
    · unfold handle_new_message save_message
      simp [h]
  · intro hnd
    unfold save_message
    by_cases h : store.any (fun m => m.message_id == mid) = true
    · simpa [h] using hnd
    · have h2 : ∀ m ∈ store, m.message_id ≠ mid := by
        intro m hm he
        exact h (List.any_eq_true.mpr ⟨m, hm, by simp [he]⟩)
      simp only [h, if_neg, Bool.false_eq_true, not_false_iff, if_false, List.map_append]
      refine List.Nodup.append hnd (List.nodup_singleton _) ?_
      intro a ha hb
      simp only [List.map_cons, List.map_nil, List.mem_singleton] at hb
      rw [List.mem_map] at ha
      obtain ⟨m, hm, hamid⟩ := ha
      exact h2 m hm (by rw [hamid, hb])

/-- Witness for the C10 theorem at a store already holding message_id 5. -/
theorem C10_save_message_witness :
    save_message [⟨5, 0, "x", false⟩] 5 1 "y" true = (none, [⟨5, 0, "x", false⟩]) ∧
    handle_new_message [⟨5, 0, "x", false⟩] 5 1 "#block y" =
      ([⟨5, 0, "x", false⟩], false) :=
  ⟨((C10_save_message_dedup [⟨5, 0, "x", false⟩] 5 1 "y" true).1 (by decide)).1,
   ((C10_save_message_dedup [⟨5, 0, "x", false⟩] 5 1 "#block y" true).1 (by decide)).2⟩

/-- C1 (code bug): on the Scenario 4 two-leg trade the parser produces a LONG options
leg with total_usd 100000 and a SHORT one with 80000, yet every premium field the alert
evaluation reads is None — the keys are never computed anywhere — so the premium
trigger is identically false instead of seeing the values 100000, 80000, -20000 and
20000 demanded by the claim. -/
theorem C1_premium_fields_missing_at_alert :
    ∃ t, parse_block_trade_message c1Text = .ok t ∧
      t.options_legs.map Leg.side = ["LONG", "SHORT"] ∧
      t.options_legs.map Leg.total_usd = [some 100000, some 80000] ∧
      premium_paid_seen t = none ∧ premium_received_seen t = none ∧
      net_premium_seen t = none ∧ abs_net_premium_seen t = none ∧
      (send_alert_decision alertConfigEnabled t).premiumTrigger = false ∧
      (send_alert_decision alertConfigEnabled t).sent = false := by
  refine ⟨c1Parsed, by rfl, ?_, ?_, rfl, rfl, rfl, rfl, ?_, ?_⟩ <;>
    decide

/-- C5 counterexample: a trade with one OPTIONS leg and one PERPETUAL hedge leg parses
with options_count 1, but the text-level instrument_type is PERPETUAL, so the
options-only statistics list drops it — the claim says it is included. -/
theorem C5_options_with_perp_hedge_excluded :
    ∃ p, parse_block_trade_message c5Text = .ok p ∧
      p.options_count = 1 ∧
      p.instrument_type = "PERPETUAL" ∧
      normalize_block_trades [⟨1, 0, c5Text⟩] true = [] := by
  refine ⟨c5Parsed, by rfl, ?_, ?_, ?_⟩ <;> decide

/-- C5 amended: the options-only statistics list keeps exactly the messages accepted by
includedInStats, and for a successfully parsed message that predicate tests the
text-level instrument_type against FUTURES/PERPETUAL — not the presence of an OPTIONS
leg. -/
theorem C5_stats_inclusion_by_global_type :
    (∀ ms : List MsgRow,
      (normalize_block_trades ms true).length = (ms.filter includedInStats).length) ∧
    (∀ m : MsgRow, ∀ p, parse_block_trade_message m.text = .ok p →
      includedInStats m =
        !(p.instrument_type == "FUTURES" || p.instrument_type == "PERPETUAL")) := by
  constructor
  · intro ms
    induction ms with
    | nil => rfl
    | cons m rest ih =>
      rw [normalize_block_trades, List.length_append, ih, List.filter_cons]
      cases hp : parse_block_trade_message m.text with
      | error e =>
        have hinc : includedInStats m = true := by
          unfold includedInStats
          rw [hp]
        simp [hinc, Nat.add_comm]
      | ok p =>
        have hinc : includedInStats m =
            !(p.instrument_type == "FUTURES" || p.instrument_type == "PERPETUAL") := by
          unfold includedInStats
          rw [hp]
        by_cases hk :
            (p.instrument_type == "FUTURES" || p.instrument_type == "PERPETUAL") = true
        · simp [hinc, hk]
        · rw [Bool.not_eq_true] at hk
          simp [hinc, hk, Nat.add_comm]
  · intro m p hp
    unfold includedInStats
    rw [hp]

/-- Witness for the amended C5 theorem: the OPTIONS-plus-PERPETUAL-hedge message is
excluded from the statistics, while a message on which the parser raises (the
unguarded float() of the global price-inference step) goes through the except branch
and is included as a default entry. -/
theorem C5_stats_inclusion_witness :
    includedInStats ⟨1, 0, c5Text⟩ = false ∧
    parse_block_trade_message c5RaiseText = .error () ∧
    includedInStats ⟨2, 0, c5RaiseText⟩ = true ∧
    (normalize_block_trades [⟨2, 0, c5RaiseText⟩] true).length = 1 := by
  refine ⟨?_, by rfl, by rfl, by rfl⟩
  have h := C5_stats_inclusion_by_global_type.2 ⟨1, 0, c5Text⟩ c5Parsed
    (by rfl)
  rw [h]
  decide

/-- C9 counterexample: on a Bought/Sold clause with the non-numeric volume token
1.2.3x, parse_block_trade_message raises (float ValueError) instead of returning a
degraded record. -/
theorem C9_malformed_volume_raises :
    parse_block_trade_message c9Text = .error () := by rfl

/-- C2: with alerting enabled, each guard clause short-circuits with no alert, and past
the guards the volume reason fires exactly when the options volume sum strictly exceeds
the resolved per-asset threshold. -/
theorem C2_alert_guards_and_volume_rule (cfg : AlertConfig) (t : TradeInfo)
    (hv : cfg.volumeAlertEnabled = true) (he : cfg.emailEnabled = true) :
    (t.options_legs = [] → (send_alert_decision cfg t).sent = false) ∧
    (t.exchange ≠ cfg.monitoredExchange → (send_alert_decision cfg t).sent = false) ∧
    (t.asset ≠ "BTC" → t.asset ≠ "ETH" → (send_alert_decision cfg t).sent = false) ∧
    (t.options_legs ≠ [] → t.options_count ≠ 0 → t.exchange = cfg.monitoredExchange →
      ∀ thr, resolveVolumeThreshold cfg t.asset = some thr →
        ("volume" ∈ (send_alert_decision cfg t).reasons ↔ thr < t.options_sum)) := by
  unfold send_alert_decision
  rw [hv, he]
  simp only [Bool.not_true, Bool.false_eq_true, if_false]
  refine ⟨?_, ?_, ?_, ?_⟩
  · intro hleg
    rw [hleg]
    simp [skipOutcome]
  · intro hex
    by_cases hguard : (t.options_legs.isEmpty || t.options_count == 0) = true
    · simp [hguard, skipOutcome]
    · simp only [hguard, Bool.false_eq_true, if_false, if_pos hex]
      simp [skipOutcome]
  · intro ha1 ha2
    by_cases hguard : (t.options_legs.isEmpty || t.options_count == 0) = true
    · simp [hguard, skipOutcome]
    · simp only [hguard, Bool.false_eq_true, if_false]
      by_cases hex : t.exchange ≠ cfg.monitoredExchange
      · simp [hex, skipOutcome]
      · simp only [if_neg hex]
        unfold resolveVolumeThreshold
        rw [if_neg ha1, if_neg ha2]
        simp [skipOutcome]
  · intro hleg hcount hex thr hthr
    have hguard : (t.options_legs.isEmpty || t.options_count == 0) = false := by
      simp [List.isEmpty_iff, hleg, hcount]
    have hex2 : ¬t.exchange ≠ cfg.monitoredExchange := by simpa using hex
    rw [hguard]
    simp only [Bool.false_eq_true, if_false, if_neg hex2, hthr]
    by_cases hlt : thr < t.options_sum
    · simp [hlt, abs_net_premium_seen]
    · simp [hlt, skipOutcome, abs_net_premium_seen]

/-- Witness for the C2 theorem at a 250-lot BTC options trade on Deribit with the
default thresholds. -/
theorem C2_alert_guards_witness :
    "volume" ∈ (send_alert_decision alertConfigEnabled c2TradeW).reasons ↔
      (200 : Dec) < 250 :=
  (C2_alert_guards_and_volume_rule alertConfigEnabled c2TradeW rfl rfl).2.2.2
    (by decide) (by decide) rfl 200 (by decide)

theorem pickLatestRow_mem : ∀ l : List LedgerRow, ∀ c, pickLatestRow l = some c → c ∈ l := by
  intro l
  induction l with
  | nil => intro c hc; exact absurd hc (by simp [pickLatestRow])
  | cons r rest ih =>
    intro c hc
    rw [pickLatestRow] at hc
    cases hrest : pickLatestRow rest with
    | none =>
      rw [hrest] at hc
      have hc2 : some r = some c := hc
      injection hc2 with hc2
      exact hc2 ▸ List.mem_cons_self r rest
    | some b =>
      rw [hrest] at hc
      have hc2 : (if b.report_date > r.report_date then some b else some r) = some c := hc
      by_cases hgt : b.report_date > r.report_date
      · rw [if_pos hgt] at hc2
        injection hc2 with hc2
        exact hc2 ▸ List.mem_cons_of_mem r (ih b hrest)
      · rw [if_neg hgt] at hc2
        injection hc2 with hc2
        exact hc2 ▸ List.mem_cons_self r rest

theorem pickLatestRow_max : ∀ l : List LedgerRow, ∀ c, pickLatestRow l = some c →
    ∀ r ∈ l, r.report_date ≤ c.report_date := by
  intro l
  induction l with
  | nil => intro c _ r hr; exact absurd hr (by simp)
  | cons x rest ih =>
    intro c hc r hr
    rw [pickLatestRow] at hc
    cases hrest : pickLatestRow rest with
    | none =>
      rw [hrest] at hc
      have hc2 : some x = some c := hc
      injection hc2 with hc2
      have hemp : rest = [] := by
        cases rest with
        | nil => rfl
        | cons y ys =>
          rw [pickLatestRow] at hrest
          cases h2 : pickLatestRow ys with
          | none => rw [h2] at hrest; exact absurd hrest (by simp)
          | some b =>
            rw [h2] at hrest
            have h3 : (if b.report_date > y.report_date then some b else some y) = none :=
              hrest
            by_cases hgt : b.report_date > y.report_date <;> simp [hgt] at h3
      rcases List.mem_cons.mp hr with h | h
      · rw [h, hc2]
      · rw [hemp] at h; exact absurd h (by simp)
    | some b =>
      rw [hrest] at hc
      have hc2 : (if b.report_date > x.report_date then some b else some x) = some c := hc
      rcases List.mem_cons.mp hr with h | h
      · subst h
        by_cases hgt : b.report_date > r.report_date
        · rw [if_pos hgt] at hc2; injection hc2 with hc2; exact hc2 ▸ le_of_lt hgt
        · rw [if_neg hgt] at hc2; injection hc2 with hc2; exact hc2 ▸ le_refl _
      · have hb := ih b hrest r h
        by_cases hgt : b.report_date > x.report_date
        · rw [if_pos hgt] at hc2; injection hc2 with hc2; exact hc2 ▸ hb
        · rw [if_neg hgt] at hc2
          injection hc2 with hc2
          exact hc2 ▸ hb.trans (not_lt.mp hgt)

theorem pickLatestRow_isSome : ∀ l : List LedgerRow, l ≠ [] →
    ∃ c, pickLatestRow l = some c := by
  intro l hl
  cases l with
  | nil => exact absurd rfl hl
  | cons x rest =>
    rw [pickLatestRow]
    cases pickLatestRow rest with
    | none => exact ⟨x, rfl⟩
    | some b =>
      by_cases hgt : b.report_date > x.report_date
      · exact ⟨b, show (if b.report_date > x.report_date then some b else some x) = some b
          from if_pos hgt⟩
      · exact ⟨x, show (if b.report_date > x.report_date then some b else some x) = some x
          from if_neg hgt⟩

/-- C3: one run of the send-check changes nothing on a failed send; with pending rows a
candidate exists; the candidate is a pending row of maximum report_date; and on a
successful send the run updates exactly the candidate row to sent (sent_at set), leaving
every row with another report_date untouched. -/
theorem C3_send_latest_only (rows : List LedgerRow) (emailEnabled sendOk : Bool)
    (now : Nat) :
    (sendOk = false → send_pending_daily_reports rows emailEnabled sendOk now = rows) ∧
    ((∃ r ∈ rows, r.is_sent = false) → ∃ c, selectSendCandidate rows = some c) ∧
    (∀ c, selectSendCandidate rows = some c →
      c ∈ rows ∧ c.is_sent = false ∧
      (∀ r ∈ rows, r.is_sent = false → r.report_date ≤ c.report_date) ∧
      (emailEnabled = true → sendOk = true →
        send_pending_daily_reports rows emailEnabled sendOk now =
          rows.map (markRow c.report_date now) ∧
        markRow c.report_date now c = { c with is_sent := true, sent_at := some now } ∧
        (∀ r : LedgerRow, r.report_date ≠ c.report_date →
          markRow c.report_date now r = r))) := by
  refine ⟨?_, ?_, ?_⟩
  · intro hso
    subst hso
    unfold send_pending_daily_reports
    cases selectSendCandidate rows with
    | none => rfl
    | some c => by_cases hcs : c.is_sent <;> cases emailEnabled <;> simp [hcs]
  · intro ⟨r, hr, hrs⟩
    apply pickLatestRow_isSome
    intro hemp
    have : r ∈ rows.filter (fun r => !r.is_sent) := List.mem_filter.mpr ⟨hr, by simp [hrs]⟩
    rw [hemp] at this
    exact absurd this (by simp)
  · intro c hc
    have hcf := pickLatestRow_mem _ _ hc
    have hcm := List.mem_filter.mp hcf
    have hcs : c.is_sent = false := by simpa using hcm.2
    refine ⟨hcm.1, hcs, ?_, ?_⟩
    · intro r hr hrs
      exact pickLatestRow_max _ _ hc r (List.mem_filter.mpr ⟨hr, by simp [hrs]⟩)
    · intro hee hso
      subst hee hso
      unfold send_pending_daily_reports
      rw [hc]
      refine ⟨?_, ?_, ?_⟩
      · show (if c.is_sent = true then rows
            else if (!true) = true then rows
            else if true = true then List.map (markRow c.report_date now) rows else rows) =
          List.map (markRow c.report_date now) rows
        rw [hcs]
        simp
      · unfold markRow
        simp
      · intro r hrd
        unfold markRow
        simp [hrd]

/-- Witness for the C3 theorem: two pending rows, dated 1 and 2; the successful run
marks only the row dated 2 as sent. -/
theorem C3_send_latest_witness :
    send_pending_daily_reports [⟨1, false, none⟩, ⟨2, false, none⟩] true true 99 =
      [⟨1, false, none⟩, ⟨2, true, some 99⟩] := by
  have h := (C3_send_latest_only [⟨1, false, none⟩, ⟨2, false, none⟩] true true 99).2.2
    ⟨2, false, none⟩ (by decide)
  exact ((h.2.2.2 rfl rfl).1).trans (by decide)

theorem Dec.le_def (a b : Dec) :
    a ≤ b ↔ a.man * (10 : Int) ^ b.exp ≤ b.man * (10 : Int) ^ a.exp := Iff.rfl

theorem Dec.lt_def (a b : Dec) :
    a < b ↔ a.man * (10 : Int) ^ b.exp < b.man * (10 : Int) ^ a.exp := Iff.rfl

theorem Dec.toRat_le_iff (a b : Dec) : a ≤ b ↔ a.toRat ≤ b.toRat := by
  rw [Dec.le_def]
  unfold Dec.toRat
  rw [div_le_div_iff₀ (by positivity) (by positivity)]
  constructor
  · intro h
    exact_mod_cast h
  · intro h
    exact_mod_cast h

theorem Dec.toRat_lt_iff (a b : Dec) : a < b ↔ a.toRat < b.toRat := by
  rw [Dec.lt_def]
  unfold Dec.toRat
  rw [div_lt_div_iff₀ (by positivity) (by positivity)]
  constructor
  · intro h
    exact_mod_cast h
  · intro h
    exact_mod_cast h

theorem Dec.lt_flip_of_not_le {a b : Dec} (h : ¬a ≤ b) : b < a := by
  rw [Dec.le_def] at h
  rw [Dec.lt_def]
  exact lt_of_not_le h

theorem mem_insertVolDesc {z x : NormTrade} : ∀ {l : List NormTrade},
    z ∈ insertVolDesc x l ↔ z = x ∨ z ∈ l := by
  intro l
  induction l with
  | nil => simp [insertVolDesc]
  | cons y ys ih =>
    rw [insertVolDesc]
    by_cases hge : x.volume ≥ y.volume
    · rw [if_pos hge]
      simp
    · rw [if_neg hge]
      simp only [List.mem_cons, ih]
      tauto

theorem insertVolDesc_pairwise (x : NormTrade) (l : List NormTrade)
    (hl : l.Pairwise volThenLater) (hx : ∀ y ∈ l, tsAfter x y) :
    (insertVolDesc x l).Pairwise volThenLater := by
  induction l with
  | nil => exact List.pairwise_singleton _ _
  | cons y ys ih =>
    rcases List.pairwise_cons.mp hl with ⟨hy, hys⟩
    rw [insertVolDesc]
    by_cases hge : x.volume ≥ y.volume
    · rw [if_pos hge]
      have hge2 : y.volume.toRat ≤ x.volume.toRat := (Dec.toRat_le_iff _ _).mp hge
      refine List.pairwise_cons.mpr ⟨?_, hl⟩
      intro z hz
      rcases List.mem_cons.mp hz with h | h
      · subst h
        rcases lt_or_eq_of_le hge2 with hlt | heq
        · exact Or.inl hlt
        · exact Or.inr ⟨heq.symm, hx z (List.mem_cons_self _ _)⟩
      · have hzy : z.volume.toRat ≤ y.volume.toRat := by
          rcases hy z h with h1 | h1
          · exact le_of_lt h1
          · exact le_of_eq h1.1.symm
        rcases lt_or_eq_of_le (hzy.trans hge2) with hlt | heq
        · exact Or.inl hlt
        · exact Or.inr ⟨heq.symm, hx z (List.mem_cons_of_mem _ h)⟩
    · rw [if_neg hge]
      have hxy : x.volume.toRat < y.volume.toRat :=
        (Dec.toRat_lt_iff _ _).mp (Dec.lt_flip_of_not_le hge)
      refine List.pairwise_cons.mpr
        ⟨?_, ih hys (fun z hz => hx z (List.mem_cons_of_mem _ hz))⟩
      intro z hz
      rcases mem_insertVolDesc.mp hz with h | h
      · subst h
        exact Or.inl hxy
      · exact hy z h

theorem mem_sortVolDesc {z : NormTrade} : ∀ {l : List NormTrade},
    z ∈ sortVolDesc l ↔ z ∈ l := by
  intro l
  induction l with
  | nil => simp [sortVolDesc]
  | cons x xs ih =>
    rw [sortVolDesc]
    rw [mem_insertVolDesc, ih]
    simp

theorem sortVolDesc_pairwise : ∀ l : List NormTrade, l.Pairwise tsAfter →
    (sortVolDesc l).Pairwise volThenLater := by
  intro l
  induction l with
  | nil => intro _; exact List.Pairwise.nil
  | cons x xs ih =>
    intro h
    rcases List.pairwise_cons.mp h with ⟨hx, hxs⟩
    rw [sortVolDesc]
    exact insertVolDesc_pairwise x _ (ih hxs) (fun y hy => hx y (mem_sortVolDesc.mp hy))

/-- C6 amended: when the input trades arrive with strictly descending timestamps (the
date-descending order of get_block_trades_by_date_range), the per-asset topByVolume
list is sorted by volume descending with at most N entries drawn from the asset, and a
volume tie is broken with the LATER timestamp first — the stable sort keeps the
date-descending retrieval order among equal volumes. -/
theorem C6_top_by_volume_sorted_ties_later_first (asset : String)
    (trades : List NormTrade) (n : Nat) (h : trades.Pairwise tsAfter) :
    (top_by_volume asset trades n).Pairwise volThenLater ∧
    (top_by_volume asset trades n).length ≤ n ∧
    ∀ t ∈ top_by_volume asset trades n, t ∈ trades ∧ t.asset = asset := by
  unfold top_by_volume
  refine ⟨?_, ?_, ?_⟩
  · exact List.Pairwise.sublist (List.take_sublist _ _)
      (sortVolDesc_pairwise _ (h.filter _))
  · exact List.length_take_le _ _
  · intro t ht
    have h1 : t ∈ sortVolDesc (trades.filter (fun t => t.asset == asset)) :=
      List.mem_of_mem_take ht
    have h2 := List.mem_filter.mp (mem_sortVolDesc.mp h1)
    exact ⟨h2.1, by simpa using h2.2⟩

/-- C6 counterexample: two equal-volume BTC trades, timestamps 1 and 2, arrive in the
date-descending DB order; the ranking places the LATER trade first, while the claim
demands the earlier timestamp ranked ahead. -/
theorem C6_equal_volume_later_first_counterexample :
    top_by_volume "BTC" [c6B, c6A] 3 = [c6B, c6A] ∧
    c6A.volume = c6B.volume ∧ c6A.ts = some 1 ∧ c6B.ts = some 2 :=
  ⟨by decide, by decide, rfl, rfl⟩

/-- Witness for the amended C6 theorem at the two-trade input. -/
theorem C6_top_by_volume_witness :
    (top_by_volume "BTC" [c6B, c6A] 3).Pairwise volThenLater := by
  have hp : ([c6B, c6A] : List NormTrade).Pairwise tsAfter := by
    refine List.pairwise_cons.mpr ⟨?_, List.pairwise_singleton _ _⟩
    intro z hz
    rw [List.mem_singleton] at hz
    subst hz
    intro x y hx hy
    have hx2 : (2 : Int) = x := by simpa [c6B] using hx
    have hy2 : (1 : Int) = y := by simpa [c6A] using hy
    omega
  exact (C6_top_by_volume_sorted_ties_later_first "BTC" [c6B, c6A] 3 hp).1

theorem spotPriceBTC_band (tl : List Char) (p : Dec) (h : spotPriceBTC tl = some p) :
    (1000 : Dec) < p ∧ p < (200000 : Dec) := by
  unfold spotPriceBTC at h
  cases h1 : spotTagCapture "BTC".data tl with
  | none => rw [h1] at h; exact absurd h (by simp)
  | some cap =>
    rw [h1] at h
    have hb : (match pyFloat (cap.filter (fun c => c ≠ ',')) with
        | none => none
        | some v => if (1000 : Dec) < v ∧ v < (200000 : Dec) then some v else none) =
        some p := h
    cases h2 : pyFloat (cap.filter (fun c => c ≠ ',')) with
    | none => rw [h2] at hb; exact absurd hb (by simp)
    | some v =>
      rw [h2] at hb
      have hc : (if (1000 : Dec) < v ∧ v < (200000 : Dec) then some v else none) =
          some p := hb
      by_cases h3 : (1000 : Dec) < v ∧ v < (200000 : Dec)
      · rw [if_pos h3] at hc
        injection hc with hc
        exact hc ▸ h3
      · rw [if_neg h3] at hc
        exact absurd hc (by simp)

theorem spotPriceETH_band (tl : List Char) (p : Dec) (h : spotPriceETH tl = some p) :
    (100 : Dec) < p ∧ p < (10000 : Dec) := by
  unfold spotPriceETH at h
  cases h1 : spotTagCapture "ETH".data tl with
  | none => rw [h1] at h; exact absurd h (by simp)
  | some cap =>
    rw [h1] at h
    have hb : (match pyFloat (cap.filter (fun c => c ≠ ',')) with
        | none => none
        | some v => if (100 : Dec) < v ∧ v < (10000 : Dec) then some v else none) =
        some p := h
    cases h2 : pyFloat (cap.filter (fun c => c ≠ ',')) with
    | none => rw [h2] at hb; exact absurd hb (by simp)
    | some v =>
      rw [h2] at hb
      have hc : (if (100 : Dec) < v ∧ v < (10000 : Dec) then some v else none) =
          some p := hb
      by_cases h3 : (100 : Dec) < v ∧ v < (10000 : Dec)
      · rw [if_pos h3] at hc
        injection hc with hc
        exact hc ▸ h3
      · rw [if_neg h3] at hc
        exact absurd hc (by simp)

theorem refMkResult_source (bc ec : Option RefCand) (r : SpotResult)
    (h : refMkResult bc ec = some r) : r.spot_source = "ref_fallback" := by
  cases bc with
  | none =>
    cases ec with
    | none => exact absurd h (by simp [refMkResult])
    | some c =>
      have h2 : some ((⟨none, some c.ref_price, "ref_fallback",
          some c.msg.message_id⟩ : SpotResult)) = some r := h
      injection h2 with h2
      rw [← h2]
  | some b =>
    cases ec with
    | none =>
      have h2 : some ((⟨some b.ref_price, none, "ref_fallback",
          some b.msg.message_id⟩ : SpotResult)) = some r := h
      injection h2 with h2
      rw [← h2]
    | some c =>
      have h2 : some ((⟨some b.ref_price, some c.ref_price, "ref_fallback",
          some b.msg.message_id⟩ : SpotResult)) = some r := h
      injection h2 with h2
      rw [← h2]

theorem refFallback_source (msgs : List MsgRow) (s e : Int) (r : SpotResult)
    (h : refFallback msgs s e = some r) : r.spot_source = "ref_fallback" := by
  unfold refFallback at h
  by_cases h1 : (refCands msgs s e).isEmpty = true
  · rw [if_pos h1] at h
    exact absurd h (by simp)
  · rw [if_neg h1] at h
    exact refMkResult_source _ _ r h

/-- C4 amended: results coming from the two dedicated spot-tag paths are band-validated
(BTC strictly between 1000 and 200000, ETH strictly between 100 and 10000); the Ref
fallback path carries no such validation. -/
theorem C4_tag_paths_band_validated (msgs : List MsgRow) (s e : Int)
    (h : (extract_spot_prices msgs s e).spot_source = "spot_prices_tag" ∨
      (extract_spot_prices msgs s e).spot_source = "spot_prices_fallback") :
    (∀ p, (extract_spot_prices msgs s e).btc = some p →
      (1000 : Dec) < p ∧ p < (200000 : Dec)) ∧
    (∀ p, (extract_spot_prices msgs s e).eth = some p →
      (100 : Dec) < p ∧ p < (10000 : Dec)) := by
  unfold extract_spot_prices at *
  cases h1 : pickLatest
      ((spotTagMsgs msgs).filter (fun m => decide (s ≤ m.date ∧ m.date ≤ e))) with
  | some m =>
    exact ⟨fun p hp => spotPriceBTC_band _ p hp, fun p hp => spotPriceETH_band _ p hp⟩
  | none =>
    rw [h1] at h
    cases h2 : pickLatest ((spotTagMsgs msgs).filter (fun m => decide (m.date < s))) with
    | some m =>
      exact ⟨fun p hp => spotPriceBTC_band _ p hp, fun p hp => spotPriceETH_band _ p hp⟩
    | none =>
      rw [h2] at h
      exfalso
      cases h3 : refFallback msgs s e with
      | some r =>
        rw [h3] at h
        have h4 := refFallback_source msgs s e r h3
        rcases h with h | h
        · have h5 : r.spot_source = "spot_prices_tag" := h
          rw [h4] at h5
          exact absurd h5 (by decide)
        · have h5 : r.spot_source = "spot_prices_fallback" := h
          rw [h4] at h5
          exact absurd h5 (by decide)
      | none =>
        rw [h3] at h
        rcases h with h | h
        · have h5 : ("missing" : String) = "spot_prices_tag" := h
          exact absurd h5 (by decide)
        · have h5 : ("missing" : String) = "spot_prices_fallback" := h
          exact absurd h5 (by decide)

/-- C4 counterexample: with no spot-tag message available, a BTC Ref of 500 dollars —
far below the 1000 to 200000 band — is returned as the BTC spot price by the Ref
fallback path, with no range validation. -/
theorem C4_ref_path_unvalidated_counterexample :
    extract_spot_prices [⟨1, 5, "#block BTC trade Ref: $500"⟩] 0 10 =
      ⟨some 500, none, "ref_fallback", some 1⟩ ∧
    ¬((1000 : Dec) < (500 : Dec)) :=
  ⟨by decide, by decide⟩

/-- Witness for the amended C4 theorem at a spot-tag message. -/
theorem C4_tag_paths_witness :
    (extract_spot_prices [⟨7, 5, "🏷️ Spot Prices BTC: $95,000.00 ETH: $3,500.00"⟩]
        0 10).btc = some 95000 ∧
    (1000 : Dec) < (95000 : Dec) ∧ (95000 : Dec) < (200000 : Dec) := by
  refine ⟨by decide, ?_⟩
  exact (C4_tag_paths_band_validated
      [⟨7, 5, "🏷️ Spot Prices BTC: $95,000.00 ETH: $3,500.00"⟩] 0 10
      (Or.inl (by decide))).1 95000 (by decide)

/-! Helper lemmas for C8 and C9: where the leg-detail scanners can match, and when
the per-line steps cannot raise. -/

theorem optBind_some {α β : Type} {x : Option α} {f : α → Option β} {b : β}
    (h : (x >>= f) = some b) : ∃ a, x = some a ∧ f a = some b := by
  cases x with
  | some a => exact ⟨a, rfl, h⟩
  | none => exact Option.noConfusion h

theorem optOrElse_some {α : Type} {x : Option α} {y : Unit → Option α} {r : α}
    (h : x.orElse y = some r) : x = some r ∨ y () = some r := by
  cases x with
  | some a => exact Or.inl h
  | none => exact Or.inr h

theorem exceptBind_ok {α β : Type} {x : Except Unit α} {f : α → Except Unit β} {b : β}
    (h : (x >>= f) = .ok b) : ∃ a, x = .ok a ∧ f a = .ok b := by
  cases x with
  | ok a => exact ⟨a, rfl, h⟩
  | error e => exact Except.noConfusion h

theorem span_snd_suffix (p : Char → Bool) (s : List Char) : (s.span p).2 <:+ s := by
  rw [List.span_eq_take_drop]
  exact List.dropWhile_suffix p

theorem matchLit_suffix : ∀ p s r : List Char, matchLit p s = some r → r <:+ s := by
  intro p
  induction p with
  | nil =>
    intro s r h
    simp only [matchLit, Option.some.injEq] at h
    rw [h]
  | cons a ps ih =>
    intro s r h
    cases s with
    | nil => exact Option.noConfusion h
    | cons c cs =>
      simp only [matchLit] at h
      by_cases hac : a = c
      · rw [if_pos hac] at h
        exact (ih cs r h).trans (List.suffix_cons c cs)
      · rw [if_neg hac] at h
        exact Option.noConfusion h

theorem wsPlus_suffix (s r : List Char) (h : wsPlus s = some r) : r <:+ s := by
  simp only [wsPlus] at h
  split at h
  · exact Option.noConfusion h
  · simp only [Option.some.injEq] at h
    subst h
    exact span_snd_suffix isSpaceC s

theorem tokPlus_suffix (p : Char → Bool) (s : List Char) (pr : List Char × List Char)
    (h : tokPlus p s = some pr) : pr.2 <:+ s := by
  simp only [tokPlus] at h
  split at h
  · exact Option.noConfusion h
  · simp only [Option.some.injEq] at h
    subst h
    exact span_snd_suffix p s

theorem expectChar_suffix (c : Char) (s r : List Char) (h : expectChar c s = some r) :
    r <:+ s ∧ c ∈ s := by
  cases s with
  | nil => exact Option.noConfusion h
  | cons x t =>
    simp only [expectChar] at h
    by_cases hx : x = c
    · rw [if_pos hx] at h
      simp only [Option.some.injEq] at h
      rw [← h]
      exact ⟨List.suffix_cons x t, by rw [hx]; exact List.mem_cons_self c t⟩
    · rw [if_neg hx] at h
      exact Option.noConfusion h

theorem wsStar_suffix (s : List Char) : wsStar s <:+ s := List.dropWhile_suffix isSpaceC

theorem atPriceTryAt_mem (s : List Char) (pr : List Char × List Char)
    (h : atPriceTryAt s = some pr) : '₿' ∈ s := by
  unfold atPriceTryAt at h
  obtain ⟨s1, h1, h⟩ := optBind_some h
  obtain ⟨s2, h2, h⟩ := optBind_some h
  obtain ⟨pr1, h3, h⟩ := optBind_some h
  obtain ⟨s4, h4, h⟩ := optBind_some h
  have m1 : s1 <:+ s := matchLit_suffix _ _ _ h1
  have m2 : s2 <:+ s1 := wsPlus_suffix _ _ h2
  have m3 : pr1.2 <:+ s2 := tokPlus_suffix _ _ _ h3
  have hb : '₿' ∈ wsStar pr1.2 := (expectChar_suffix _ _ _ h4).2
  exact m1.subset (m2.subset (m3.subset ((wsStar_suffix pr1.2).subset hb)))

theorem totalTryAt_mem (s : List Char) (pr : List Char × List Char)
    (h : totalTryAt s = some pr) : '₿' ∈ s := by
  unfold totalTryAt at h
  obtain ⟨s1, h1, h⟩ := optBind_some h
  obtain ⟨s2, h2, h⟩ := optBind_some h
  obtain ⟨s3, h3, h⟩ := optBind_some h
  obtain ⟨s4, h4, h⟩ := optBind_some h
  obtain ⟨s5, h5, h⟩ := optBind_some h
  obtain ⟨pr1, h6, h⟩ := optBind_some h
  obtain ⟨s7, h7, h⟩ := optBind_some h
  have m1 : s1 <:+ s := matchLit_suffix _ _ _ h1
  have m2 : s2 <:+ s1 := wsPlus_suffix _ _ h2
  have m3 : s3 <:+ s2 := by
    rcases optOrElse_some h3 with hh | hh
    · exact matchLit_suffix _ _ _ hh
    · exact matchLit_suffix _ _ _ hh
  have m4 : s4 <:+ s3 := (expectChar_suffix _ _ _ h4).1
  have m5 : s5 <:+ s4 := wsPlus_suffix _ _ h5
  have m6 : pr1.2 <:+ s5 := tokPlus_suffix _ _ _ h6
  have hb : '₿' ∈ wsStar pr1.2 := (expectChar_suffix _ _ _ h7).2
  exact m1.subset (m2.subset (m3.subset (m4.subset (m5.subset (m6.subset
    ((wsStar_suffix pr1.2).subset hb))))))

theorem scanPos_some_suffix {α : Type} (f : List Char → Option α) :
    ∀ (s : List Char) (r : α), scanPos f s = some r → ∃ t, t <:+ s ∧ f t = some r := by
  intro s
  induction s with
  | nil =>
    intro r h
    exact ⟨[], List.suffix_refl [], h⟩
  | cons c t ih =>
    intro r h
    simp only [scanPos] at h
    cases hf : f (c :: t) with
    | some a =>
      rw [hf] at h
      have h2 : (some a : Option α) = some r := h
      exact ⟨c :: t, List.suffix_refl _, hf.trans h2⟩
    | none =>
      rw [hf] at h
      have h2 : scanPos f t = some r := h
      obtain ⟨u, hu, hfu⟩ := ih r h2
      exact ⟨u, hu.trans (List.suffix_cons c t), hfu⟩

theorem atPriceBtcMatch_none_of_no_btc (line : List Char) (hb : '₿' ∉ line) :
    atPriceBtcMatch line = none := by
  cases hm : atPriceBtcMatch line with
  | none => rfl
  | some pr =>
    obtain ⟨t, ht, hf⟩ := scanPos_some_suffix atPriceTryAt line pr hm
    exact absurd (ht.subset (atPriceTryAt_mem t pr hf)) hb

theorem totalBtcLegMatch_none_of_no_btc (line : List Char) (hb : '₿' ∉ line) :
    totalBtcLegMatch line = none := by
  cases hm : totalBtcLegMatch line with
  | none => rfl
  | some pr =>
    obtain ⟨t, ht, hf⟩ := scanPos_some_suffix totalTryAt line pr hm
    exact absurd (ht.subset (totalTryAt_mem t pr hf)) hb

theorem legPriceNative_ok (line : List Char) (o : Option Dec)
    (h : legPriceNative line = .ok o) :
    o = (atPriceBtcMatch line).bind (fun pr => pyFloat pr.1) := by
  unfold legPriceNative at h
  cases hm : atPriceBtcMatch line with
  | none =>
    rw [hm] at h
    have h2 : (Except.ok none : Except Unit (Option Dec)) = .ok o := h
    injection h2 with h2
    exact h2.symm
  | some pr =>
    rw [hm] at h
    have h2 : (match pyFloat pr.1 with
      | none => (Except.error () : Except Unit (Option Dec))
      | some v => Except.ok (some v)) = Except.ok o := h
    cases hf : pyFloat pr.1 with
    | none =>
      rw [hf] at h2
      exact Except.noConfusion h2
    | some v =>
      rw [hf] at h2
      have h3 : (Except.ok (some v) : Except Unit (Option Dec)) = .ok o := h2
      injection h3 with h3
      rw [← h3]
      show some v = pyFloat pr.1
      rw [hf]

theorem legTotalNative_ok (line : List Char) (o : Option Dec)
    (h : legTotalNative line = .ok o) :
    o = (totalBtcLegMatch line).bind (fun pr => pyFloat pr.1) := by
  unfold legTotalNative at h
  cases hm : totalBtcLegMatch line with
  | none =>
    rw [hm] at h
    have h2 : (Except.ok none : Except Unit (Option Dec)) = .ok o := h
    injection h2 with h2
    exact h2.symm
  | some pr =>
    rw [hm] at h
    have h2 : (match pyFloat pr.1 with
      | none => (Except.error () : Except Unit (Option Dec))
      | some v => Except.ok (some v)) = Except.ok o := h
    cases hf : pyFloat pr.1 with
    | none =>
      rw [hf] at h2
      exact Except.noConfusion h2
    | some v =>
      rw [hf] at h2
      have h3 : (Except.ok (some v) : Except Unit (Option Dec)) = .ok o := h2
      injection h3 with h3
      rw [← h3]
      show some v = pyFloat pr.1
      rw [hf]

theorem mkLeg_fields (line : List Char) (isB : Bool) (volTok ct : List Char) (leg : Leg)
    (h : mkLeg line isB volTok ct = .ok leg) :
    leg.price_btc = (atPriceBtcMatch line).bind (fun pr => pyFloat pr.1) ∧
    leg.price_usd = (atPriceBtcMatch line).bind (fun pr => parse_amount_with_suffix pr.2) ∧
    leg.total_btc = (totalBtcLegMatch line).bind (fun pr => pyFloat pr.1) ∧
    leg.total_usd = (totalBtcLegMatch line).bind (fun pr => parse_amount_with_suffix pr.2) := by
  unfold mkLeg at h
  obtain ⟨vol, hv, h⟩ := exceptBind_ok h
  obtain ⟨pB, hp, h⟩ := exceptBind_ok h
  obtain ⟨tB, htb, h⟩ := exceptBind_ok h
  obtain ⟨ivv, hiv, h⟩ := exceptBind_ok h
  obtain ⟨rf1, hrf, h⟩ := exceptBind_ok h
  have h2 : Except.ok (ε := Unit)
      (⟨ct.asString, if isB then "LONG" else "SHORT", vol, pB,
        (atPriceBtcMatch line).bind (fun pr => parse_amount_with_suffix pr.2), tB,
        (totalBtcLegMatch line).bind (fun pr => parse_amount_with_suffix pr.2), ivv, rf1,
        none, none, none, none, none, ""⟩ : Leg) = .ok leg := h
  injection h2 with h3
  refine ⟨?_, ?_, ?_, ?_⟩
  · rw [← h3]
    exact legPriceNative_ok line pB hp
  · rw [← h3]
  · rw [← h3]
    exact legTotalNative_ok line tB htb
  · rw [← h3]

/-- C8 (amended): the price and total details of a leg come only from the
Bought/Sold line itself, and only in the ₿-denominated form. (a) A successfully
built leg carries exactly the at-price and Total captures of its own line;
(b) a line without the character ₿ yields no at-price and no Total match, so a
Ξ-denominated detail is never captured; (c) a later line that is neither a leg
line nor a bid/mark/ask quote line leaves the state untouched, so price and
total cannot be added after the Bought/Sold line. -/
theorem C8_leg_details_same_line_btc_only :
    (∀ (line : List Char) (isB : Bool) (volTok ct : List Char) (leg : Leg),
      mkLeg line isB volTok ct = .ok leg →
        leg.price_btc = (atPriceBtcMatch line).bind (fun pr => pyFloat pr.1) ∧
        leg.price_usd =
          (atPriceBtcMatch line).bind (fun pr => parse_amount_with_suffix pr.2) ∧
        leg.total_btc = (totalBtcLegMatch line).bind (fun pr => pyFloat pr.1) ∧
        leg.total_usd =
          (totalBtcLegMatch line).bind (fun pr => parse_amount_with_suffix pr.2)) ∧
    (∀ line : List Char, '₿' ∉ line →
        atPriceBtcMatch line = none ∧ totalBtcLegMatch line = none) ∧
    (∀ (st : LoopState) (line : List Char), legLineMatch line = none →
        quoteLineTest line = false → processLine st line = .ok st) := by
  refine ⟨mkLeg_fields, ?_, ?_⟩
  · intro line hb
    exact ⟨atPriceBtcMatch_none_of_no_btc line hb, totalBtcLegMatch_none_of_no_btc line hb⟩
  · intro st line h1 h2
    unfold processLine
    rw [h1]
    cases hcu : st.cur with
    | none => rfl
    | some leg =>
      rw [h2]
      rfl

/-- C8 counterexample: the message c8XiText carries an at-price detail in the Ξ unit;
the parsed leg exists, but all four price and total fields are None — the Ξ form of
the detail line is not captured, contrary to the claim. -/
theorem C8_xi_unit_price_not_captured :
    containsSub "at 0.05 Ξ ($120.00)".data c8XiText.data = true ∧
    c8Parsed.options_legs.map
        (fun leg => (leg.price_btc, leg.price_usd, leg.total_btc, leg.total_usd)) =
      [(none, none, none, none)] := by
  constructor
  · decide
  · rfl

/-- Witness for the amended C8 theorem: on the ₿-denominated witness line, the built
leg carries price 0.1 ₿ ($10,000.00) and total 1.0 ₿ ($100K), exactly the captures of
that same line. -/
theorem C8_leg_details_witness :
    mkLeg c8LineW true "10.0".data "BTC-27MAR26-100000-C".data = .ok c8LegW ∧
    (c8LegW.price_btc = (atPriceBtcMatch c8LineW).bind (fun pr => pyFloat pr.1) ∧
      c8LegW.price_usd =
        (atPriceBtcMatch c8LineW).bind (fun pr => parse_amount_with_suffix pr.2) ∧
      c8LegW.total_btc = (totalBtcLegMatch c8LineW).bind (fun pr => pyFloat pr.1) ∧
      c8LegW.total_usd =
        (totalBtcLegMatch c8LineW).bind (fun pr => parse_amount_with_suffix pr.2)) ∧
    c8LegW.price_btc = some ⟨1, 1⟩ ∧ c8LegW.total_usd = some 100000 :=
  have hmk : mkLeg c8LineW true "10.0".data "BTC-27MAR26-100000-C".data = .ok c8LegW := by
    rfl
  ⟨hmk,
    C8_leg_details_same_line_btc_only.1 c8LineW true "10.0".data
      "BTC-27MAR26-100000-C".data c8LegW hmk,
    by decide, by decide⟩

theorem legPriceNative_isOk (line : List Char)
    (h : (match atPriceBtcMatch line with
          | some pr => (pyFloat pr.1).isSome
          | none => true) = true) :
    ∃ o, legPriceNative line = .ok o := by
  unfold legPriceNative
  cases hm : atPriceBtcMatch line with
  | none => exact ⟨none, rfl⟩
  | some pr =>
    rw [hm] at h
    have h2 : (pyFloat pr.1).isSome = true := h
    obtain ⟨v, hv⟩ := Option.isSome_iff_exists.mp h2
    show ∃ o, (match pyFloat pr.1 with
      | none => (Except.error () : Except Unit (Option Dec))
      | some v => Except.ok (some v)) = Except.ok o
    rw [hv]
    exact ⟨some v, rfl⟩

theorem legTotalNative_isOk (line : List Char)
    (h : (match totalBtcLegMatch line with
          | some pr => (pyFloat pr.1).isSome
          | none => true) = true) :
    ∃ o, legTotalNative line = .ok o := by
  unfold legTotalNative
  cases hm : totalBtcLegMatch line with
  | none => exact ⟨none, rfl⟩
  | some pr =>
    rw [hm] at h
    have h2 : (pyFloat pr.1).isSome = true := h
    obtain ⟨v, hv⟩ := Option.isSome_iff_exists.mp h2
    show ∃ o, (match pyFloat pr.1 with
      | none => (Except.error () : Except Unit (Option Dec))
      | some v => Except.ok (some v)) = Except.ok o
    rw [hv]
    exact ⟨some v, rfl⟩

theorem legIvField_isOk (line : List Char)
    (h : (match ivLegMatch line with
          | some tk => (pyFloat tk).isSome
          | none => true) = true) :
    ∃ o, legIvField line = .ok o := by
  unfold legIvField
  cases hm : ivLegMatch line with
  | none => exact ⟨none, rfl⟩
  | some tk =>
    rw [hm] at h
    have h2 : (pyFloat tk).isSome = true := h
    obtain ⟨v, hv⟩ := Option.isSome_iff_exists.mp h2
    show ∃ o, (match pyFloat tk with
      | none => (Except.error () : Except Unit (Option Dec))
      | some v => Except.ok (some v)) = Except.ok o
    rw [hv]
    exact ⟨some v, rfl⟩

theorem legRefField_isOk (line : List Char)
    (h : (match refLegMatch line with
          | some tk => (pyFloat (tk.filter (fun c => c ≠ ','))).isSome
          | none => true) = true) :
    ∃ o, legRefField line = .ok o := by
  unfold legRefField
  cases hm : refLegMatch line with
  | none => exact ⟨none, rfl⟩
  | some tk =>
    rw [hm] at h
    have h2 : (pyFloat (tk.filter (fun c => c ≠ ','))).isSome = true := h
    obtain ⟨v, hv⟩ := Option.isSome_iff_exists.mp h2
    show ∃ o, (match pyFloat (tk.filter (fun c => c ≠ ',')) with
      | none => (Except.error () : Except Unit (Option Dec))
      | some v => Except.ok (some v)) = Except.ok o
    rw [hv]
    exact ⟨some v, rfl⟩

theorem mkLeg_isOk (line : List Char) (isB : Bool) (volTok ct : List Char)
    (h1 : (pyFloat volTok).isSome = true)
    (h2 : (match atPriceBtcMatch line with
           | some pr => (pyFloat pr.1).isSome
           | none => true) = true)
    (h3 : (match totalBtcLegMatch line with
           | some pr => (pyFloat pr.1).isSome
           | none => true) = true)
    (h4 : (match ivLegMatch line with
           | some tk => (pyFloat tk).isSome
           | none => true) = true)
    (h5 : (match refLegMatch line with
           | some tk => (pyFloat (tk.filter (fun c => c ≠ ','))).isSome
           | none => true) = true) :
    ∃ leg, mkLeg line isB volTok ct = .ok leg := by
  obtain ⟨v, hv⟩ := Option.isSome_iff_exists.mp h1
  obtain ⟨pB, hp⟩ := legPriceNative_isOk line h2
  obtain ⟨tB, ht⟩ := legTotalNative_isOk line h3
  obtain ⟨iv1, hiv⟩ := legIvField_isOk line h4
  obtain ⟨rf1, hrf⟩ := legRefField_isOk line h5
  refine ⟨⟨ct.asString, if isB then "LONG" else "SHORT", v, pB,
    (atPriceBtcMatch line).bind (fun pr => parse_amount_with_suffix pr.2), tB,
    (totalBtcLegMatch line).bind (fun pr => parse_amount_with_suffix pr.2), iv1, rf1,
    none, none, none, none, none, ""⟩, ?_⟩
  unfold mkLeg
  rw [hv, hp, ht, hiv, hrf]
  rfl

theorem updBid_isOk (line : List Char) (leg : Leg)
    (h : (match bidValMatch line with
          | some pr => (pyFloat pr.1).isSome &&
              (match pr.2 with | some tk => (pyFloat tk).isSome | none => true)
          | none => true) = true) :
    ∃ leg1, updBid line leg = .ok leg1 := by
  unfold updBid
  cases hm : bidValMatch line with
  | none => exact ⟨leg, rfl⟩
  | some pr =>
    rw [hm] at h
    have h2 : ((pyFloat pr.1).isSome &&
        (match pr.2 with | some tk => (pyFloat tk).isSome | none => true)) = true := h
    rw [Bool.and_eq_true] at h2
    obtain ⟨b, hb⟩ := Option.isSome_iff_exists.mp h2.1
    show ∃ leg1, (match pyFloat pr.1 with
      | none => (Except.error () : Except Unit Leg)
      | some b =>
        match pr.2 with
        | none => Except.ok { leg with bid := some b }
        | some t =>
          match pyFloat t with
          | none => Except.error ()
          | some bs => Except.ok { leg with bid := some b, bid_size := some bs }) =
      Except.ok leg1
    rw [hb]
    show ∃ leg1, (match pr.2 with
      | none => Except.ok { leg with bid := some b }
      | some t =>
        match pyFloat t with
        | none => (Except.error () : Except Unit Leg)
        | some bs => Except.ok { leg with bid := some b, bid_size := some bs }) =
      Except.ok leg1
    cases hp2 : pr.2 with
    | none => exact ⟨_, rfl⟩
    | some tk =>
      have h3 : (pyFloat tk).isSome = true := by
        have h4 := h2.2
        rw [hp2] at h4
        exact h4
      obtain ⟨bs, hbs⟩ := Option.isSome_iff_exists.mp h3
      show ∃ leg1, (match pyFloat tk with
        | none => (Except.error () : Except Unit Leg)
        | some bs => Except.ok { leg with bid := some b, bid_size := some bs }) =
        Except.ok leg1
      rw [hbs]
      exact ⟨_, rfl⟩

theorem updMark_isOk (line : List Char) (leg : Leg)
    (h : (match markValMatch line with
          | some tk => (pyFloat tk).isSome
          | none => true) = true) :
    ∃ leg1, updMark line leg = .ok leg1 := by
  unfold updMark
  cases hm : markValMatch line with
  | none => exact ⟨leg, rfl⟩
  | some tk =>
    rw [hm] at h
    have h2 : (pyFloat tk).isSome = true := h
    obtain ⟨v, hv⟩ := Option.isSome_iff_exists.mp h2
    show ∃ leg1, (match pyFloat tk with
      | none => (Except.error () : Except Unit Leg)
      | some m => Except.ok { leg with mark := some m }) = Except.ok leg1
    rw [hv]
    exact ⟨_, rfl⟩

theorem updAsk_isOk (line : List Char) (leg : Leg)
    (h : (match askValMatch line with
          | some pr => (pyFloat pr.1).isSome &&
              (match pr.2 with | some tk => (pyFloat tk).isSome | none => true)
          | none => true) = true) :
    ∃ leg1, updAsk line leg = .ok leg1 := by
  unfold updAsk
  cases hm : askValMatch line with
  | none => exact ⟨leg, rfl⟩
  | some pr =>
    rw [hm] at h
    have h2 : ((pyFloat pr.1).isSome &&
        (match pr.2 with | some tk => (pyFloat tk).isSome | none => true)) = true := h
    rw [Bool.and_eq_true] at h2
    obtain ⟨b, hb⟩ := Option.isSome_iff_exists.mp h2.1
    show ∃ leg1, (match pyFloat pr.1 with
      | none => (Except.error () : Except Unit Leg)
      | some av =>
        match pr.2 with
        | none => Except.ok { leg with ask := some av }
        | some t =>
          match pyFloat t with
          | none => Except.error ()
          | some asz => Except.ok { leg with ask := some av, ask_size := some asz }) =
      Except.ok leg1
    rw [hb]
    show ∃ leg1, (match pr.2 with
      | none => Except.ok { leg with ask := some b }
      | some t =>
        match pyFloat t with
        | none => (Except.error () : Except Unit Leg)
        | some asz => Except.ok { leg with ask := some b, ask_size := some asz }) =
      Except.ok leg1
    cases hp2 : pr.2 with
    | none => exact ⟨_, rfl⟩
    | some tk =>
      have h3 : (pyFloat tk).isSome = true := by
        have h4 := h2.2
        rw [hp2] at h4
        exact h4
      obtain ⟨bs, hbs⟩ := Option.isSome_iff_exists.mp h3
      show ∃ leg1, (match pyFloat tk with
        | none => (Except.error () : Except Unit Leg)
        | some asz => Except.ok { leg with ask := some b, ask_size := some asz }) =
        Except.ok leg1
      rw [hbs]
      exact ⟨_, rfl⟩

theorem updQuote_isOk (line : List Char) (leg : Leg)
    (hb : (match bidValMatch line with
           | some pr => (pyFloat pr.1).isSome &&
               (match pr.2 with | some tk => (pyFloat tk).isSome | none => true)
           | none => true) = true)
    (hmk : (match markValMatch line with
            | some tk => (pyFloat tk).isSome
            | none => true) = true)
    (hak : (match askValMatch line with
            | some pr => (pyFloat pr.1).isSome &&
                (match pr.2 with | some tk => (pyFloat tk).isSome | none => true)
            | none => true) = true) :
    ∃ leg1, updQuote line leg = .ok leg1 := by
  obtain ⟨l1, hl1⟩ := updBid_isOk line leg hb
  obtain ⟨l2, hl2⟩ := updMark_isOk line l1 hmk
  obtain ⟨l3, hl3⟩ := updAsk_isOk line l2 hak
  refine ⟨l3, ?_⟩
  show (updBid line leg >>= fun a => updMark line a >>= fun b => updAsk line b) = .ok l3
  rw [hl1]
  show (updMark line l1 >>= fun b => updAsk line b) = .ok l3
  rw [hl2]
  show updAsk line l2 = .ok l3
  exact hl3

theorem processLine_isOk (st : LoopState) (line : List Char)
    (h : lineFloatsOk line = true) : ∃ st1, processLine st line = .ok st1 := by
  unfold processLine
  unfold lineFloatsOk at h
  cases hm : legLineMatch line with
  | some g =>
    rw [hm] at h
    have h2 : ((pyFloat g.2.1).isSome &&
        (match atPriceBtcMatch line with
         | some pr => (pyFloat pr.1).isSome
         | none => true) &&
        (match totalBtcLegMatch line with
         | some pr => (pyFloat pr.1).isSome
         | none => true) &&
        (match ivLegMatch line with
         | some tk => (pyFloat tk).isSome
         | none => true) &&
        (match refLegMatch line with
         | some tk => (pyFloat (tk.filter (fun c => c ≠ ','))).isSome
         | none => true)) = true := h
    rw [Bool.and_eq_true, Bool.and_eq_true, Bool.and_eq_true, Bool.and_eq_true] at h2
    obtain ⟨⟨⟨⟨hv, hpc⟩, htc⟩, hic⟩, hrc⟩ := h2
    obtain ⟨leg, hleg⟩ := mkLeg_isOk line g.1 g.2.1 g.2.2 hv hpc htc hic hrc
    refine ⟨{ flushCur st with cur := some leg }, ?_⟩
    show (mkLeg line g.1 g.2.1 g.2.2 >>= fun leg =>
      pure { flushCur st with cur := some leg }) = _
    rw [hleg]
    rfl
  | none =>
    cases hcu : st.cur with
    | none => exact ⟨st, rfl⟩
    | some leg =>
      cases hq : quoteLineTest line with
      | false =>
        exact ⟨st, rfl⟩
      | true =>
        rw [hm] at h
        have h2 : (!(quoteLineTest line) ||
            ((match bidValMatch line with
              | some pr => (pyFloat pr.1).isSome &&
                  (match pr.2 with | some tk => (pyFloat tk).isSome | none => true)
              | none => true) &&
             (match markValMatch line with
              | some tk => (pyFloat tk).isSome
              | none => true) &&
             (match askValMatch line with
              | some pr => (pyFloat pr.1).isSome &&
                  (match pr.2 with | some tk => (pyFloat tk).isSome | none => true)
              | none => true))) = true := h
        rw [hq] at h2
        have h3 : ((match bidValMatch line with
              | some pr => (pyFloat pr.1).isSome &&
                  (match pr.2 with | some tk => (pyFloat tk).isSome | none => true)
              | none => true) &&
             (match markValMatch line with
              | some tk => (pyFloat tk).isSome
              | none => true) &&
             (match askValMatch line with
              | some pr => (pyFloat pr.1).isSome &&
                  (match pr.2 with | some tk => (pyFloat tk).isSome | none => true)
              | none => true)) = true := by
          simpa using h2
        rw [Bool.and_eq_true, Bool.and_eq_true] at h3
        obtain ⟨⟨hbc, hmc⟩, hac⟩ := h3
        obtain ⟨leg1, hl⟩ := updQuote_isOk line leg hbc hmc hac
        refine ⟨{ st with cur := some leg1 }, ?_⟩
        show (if true = true then
            (updQuote line leg >>= fun leg1 => pure { st with cur := some leg1 })
          else pure st) = _
        rw [if_pos rfl]
        rw [hl]
        rfl

theorem runLines_isOk : ∀ (ls : List (List Char)) (st : LoopState),
    (∀ l ∈ ls, lineFloatsOk l = true) → ∃ st1, runLines st ls = .ok st1 := by
  intro ls
  induction ls with
  | nil =>
    intro st _
    exact ⟨st, rfl⟩
  | cons l t ih =>
    intro st h
    obtain ⟨st1, h1⟩ := processLine_isOk st l (h l (List.mem_cons_self l t))
    obtain ⟨st2, h2⟩ := ih st1 (fun x hx => h x (List.mem_cons_of_mem l hx))
    refine ⟨st2, ?_⟩
    show (processLine st l >>= fun s => runLines s t) = .ok st2
    rw [h1]
    show runLines st1 t = .ok st2
    exact h2

/-- C9 (amended): parse_block_trade_message completes without an exception whenever
the global price-inference step completes (its unguarded float() on the global Total
capture, report_generator.py lines 1128 and 1137, is the only pre-loop conversion that
can raise) and every numeric capture of every line converts — but not unconditionally:
a leg line whose volume token is malformed (such as 1.2.3x) makes float() raise and
the ValueError escapes the parser, as the separate counterexample shows. -/
theorem C9_parse_total_when_numerics_wellformed (text : String)
    (hg : priceInferStep text.data (globalVolume text.data) = .ok ())
    (h : ∀ l ∈ splitLines text, lineFloatsOk l = true) :
    ∃ t, parse_block_trade_message text = .ok t := by
  unfold parse_block_trade_message
  by_cases he : text.data.isEmpty = true
  · rw [if_pos he]
    exact ⟨emptyTradeInfo, rfl⟩
  · rw [if_neg he]
    rw [hg]
    obtain ⟨st1, h1⟩ := runLines_isOk (splitLines text) ⟨[], [], none⟩ h
    rw [h1]
    exact ⟨_, rfl⟩

/-- Witness for the amended C9 theorem: on the well-formed single-leg message the
global price-inference step completes (its at-price regex matches), every line has
convertible numeric captures, and parsing returns ok. -/
theorem C9_parse_total_witness :
    priceInferStep c9GoodText.data (globalVolume c9GoodText.data) = .ok () ∧
    (∀ l ∈ splitLines c9GoodText, lineFloatsOk l = true) ∧
    ∃ t, parse_block_trade_message c9GoodText = .ok t :=
  have hg : priceInferStep c9GoodText.data (globalVolume c9GoodText.data) = .ok () := by
    rfl
  have hh : ∀ l ∈ splitLines c9GoodText, lineFloatsOk l = true := by decide
  ⟨hg, hh, C9_parse_total_when_numerics_wellformed c9GoodText hg hh⟩

end DailyReport
